import Mathlib

/-!
# go-mcp-proxy: credential storage and the authorization-retry protocol

A shallow embedding of `storage.go` and `proxy.go`.

* The file system is explicit state (`FS`), passed to and returned from every
  function that touches it.
* `log.Fatalf` ends the process; a function that can reach it returns a
  `Result`, whose `fatal` case keeps the world as it was when the process ended.
* Calls into the standard library and into the OAuth / MCP client library are
  not code of this repository.  Their results are taken from an `Env` of
  oracles, each a function of the whole world (file system, handler
  configuration and the history of calls made so far), so two attempts of the
  same remote operation may give different results.
-/

namespace GoMcpProxy

/-! ## Errors -/

/-- Go `error` values the program can see.  `notExist` is ENOENT,
    `notDirectory` is ENOTDIR, `isDirectory` is EISDIR; `wrapped` is
    `errors.Wrap`. -/
inductive Error where
  | notExist (path : String)
  | notDirectory (path : String)
  | isDirectory (path : String)
  | jsonError (msg : String)
  | ErrNoToken
  | OAuthAuthorizationRequired
  | other (msg : String)
  | wrapped (msg : String) (cause : Error)
  deriving DecidableEq, Repr

/-- The library test `client.IsOAuthAuthorizationRequiredError`, an `errors.As`
    test: it looks through wrapping. -/
def IsOAuthAuthorizationRequiredError : Error → Bool
  | .OAuthAuthorizationRequired => true
  | .wrapped _ cause => IsOAuthAuthorizationRequiredError cause
  | _ => false

/-- The test `os.IsNotExist`: true of ENOENT only. -/
def IsNotExist : Error → Bool
  | .notExist _ => true
  | _ => false

deriving instance DecidableEq for Except

/-! ## storage.go: data -/

/-- Go struct `ClientInfo`. -/
structure ClientInfo where
  ID : String
  Secret : String
  deriving DecidableEq, Repr

/-- Modelled from the spec: the token object of the transport library
    (`transport.Token`, declared outside this repository).  The program never
    looks inside it; the spec writes it as a record with an access value. -/
structure Token where
  access : String
  deriving DecidableEq, Repr

/-- Go struct `StorageFormat`; a nil pointer field is `none`. -/
structure StorageFormat where
  ClientInfo : Option ClientInfo
  Token : Option Token
  deriving DecidableEq, Repr

/-- The value `&StorageFormat{}`. -/
def StorageFormat.empty : StorageFormat := { ClientInfo := none, Token := none }

/-- Go struct `Storage` (the mutex carries no data). -/
structure Storage where
  path : String
  deriving DecidableEq, Repr

/-! ## The file system -/

/-- What a path names: a directory, or a regular file with its content and
    permission bits. -/
inductive Node where
  | dir
  | file (content : String) (perm : Nat)
  deriving DecidableEq, Repr

/-- File-system state: what each path names, if anything. -/
abbrev FS := String → Option Node

/-- Replace what `path` names. -/
def FS.set (fs : FS) (path : String) (n : Node) : FS :=
  fun p => if p = path then some n else fs p

/-- The directory part of a slash-separated path (`filepath.Dir` on a clean
    path): everything before the last slash. -/
def parentOf (path : String) : String :=
  match path.data.reverse.dropWhile (fun c => c != '/') with
  | [] => "."
  | [_] => "/"
  | _ :: rest => String.mk rest.reverse

/-- Does a regular file stand where a directory is needed on the way to
    `path`: walking up from `path`, is the nearest ancestor that exists a
    regular file.  The fuel bounds the number of ancestors looked at. -/
def notDirAbove (fs : FS) : Nat → String → Bool
  | 0, _ => false
  | fuel + 1, path =>
    match fs (parentOf path) with
    | some (.file _ _) => true
    | some .dir => false
    | none => notDirAbove fs fuel (parentOf path)

/-- The error of looking up a path that names nothing: ENOTDIR when a regular
    file stands in place of one of its directories, ENOENT otherwise. -/
def lookupError (fs : FS) (path : String) : Error :=
  if notDirAbove fs path.length path then .notDirectory path else .notExist path

/-- Library call `os.Stat`, as far as the program uses it: does the path name
    anything, and if not, which error the lookup gives. -/
def Stat (fs : FS) (path : String) : Except Error Unit :=
  match fs path with
  | some _ => .ok ()
  | none => .error (lookupError fs path)

/-- Library call `os.ReadFile`. -/
def ReadFile (fs : FS) (path : String) : Except Error String :=
  match fs path with
  | some (.file content _) => .ok content
  | some .dir => .error (.isDirectory path)
  | none => .error (lookupError fs path)

/-- Library call `os.WriteFile`: an existing file is truncated and rewritten
    and keeps its permission bits; a missing file is created with `perm` when
    its directory exists; no directory is ever created. -/
def WriteFile (fs : FS) (path : String) (data : String) (perm : Nat) : Option Error × FS :=
  match fs path with
  | some (.file _ p) => (none, fs.set path (.file data p))
  | some .dir => (some (.isDirectory path), fs)
  | none =>
    match fs (parentOf path) with
    | some .dir => (none, fs.set path (.file data perm))
    | _ => (some (lookupError fs path), fs)

/-- The two `encoding/json` entry points the program calls, for
    `StorageFormat`. -/
structure Json where
  Unmarshal : String → Except Error StorageFormat
  MarshalIndent : StorageFormat → Except Error String

/-! ## storage.go: operations -/

/-- Method `Storage.read`: when `os.Stat` reports not-exist the result is
    `(nil, nil)`; any other outcome of `os.Stat` goes on to `os.ReadFile`, whose
    error, or the decoding error, is returned; otherwise the decoded record. -/
def Storage.read (s : Storage) (j : Json) (fs : FS) : Except Error (Option StorageFormat) :=
  let missing :=
    match Stat fs s.path with
    | .error err => IsNotExist err
    | .ok _ => false
  if missing then .ok none
  else
    match ReadFile fs s.path with
    | .error err => .error err
    | .ok bytes =>
      match j.Unmarshal bytes with
      | .error err => .error err
      | .ok data => .ok (some data)

/-- Method `Storage.write`: encode, then `os.WriteFile` with mode 0600. -/
def Storage.write (s : Storage) (j : Json) (fs : FS) (data : StorageFormat) : Option Error × FS :=
  match j.MarshalIndent data with
  | .error err => (some err, fs)
  | .ok bytes => WriteFile fs s.path bytes 0o600

/-- Method `Storage.GetToken`: the stored token, or `ErrNoToken` when there is
    no file or no token in it. -/
def Storage.GetToken (s : Storage) (j : Json) (fs : FS) : Except Error Token :=
  match s.read j fs with
  | .error err => .error err
  | .ok none => .error .ErrNoToken
  | .ok (some data) =>
    match data.Token with
    | none => .error .ErrNoToken
    | some token => .ok token

/-- Method `Storage.SaveToken`: read the record (empty when there is no file),
    set its token, write the whole record. -/
def Storage.SaveToken (s : Storage) (j : Json) (fs : FS) (token : Option Token) : Option Error × FS :=
  match s.read j fs with
  | .error err => (some err, fs)
  | .ok data =>
    let data := data.getD StorageFormat.empty
    let data := { data with Token := token }
    s.write j fs data

/-- Method `Storage.GetClientInfo`: the stored registration, nil when there is
    no file. -/
def Storage.GetClientInfo (s : Storage) (j : Json) (fs : FS) : Except Error (Option ClientInfo) :=
  match s.read j fs with
  | .error err => .error err
  | .ok none => .ok none
  | .ok (some data) => .ok data.ClientInfo

/-- Method `Storage.SaveClientInfo`: read the record (empty when there is no
    file), set its registration, write the whole record. -/
def Storage.SaveClientInfo (s : Storage) (j : Json) (fs : FS) (clientInfo : Option ClientInfo) :
    Option Error × FS :=
  match s.read j fs with
  | .error err => (some err, fs)
  | .ok data =>
    let data := data.getD StorageFormat.empty
    let data := { data with ClientInfo := clientInfo }
    s.write j fs data

/-- The persisted record: what the file decodes to, a missing file counting as
    the empty record. -/
def Storage.persisted (s : Storage) (j : Json) (fs : FS) : Except Error StorageFormat :=
  match s.read j fs with
  | .error err => .error err
  | .ok data => .ok (data.getD StorageFormat.empty)

/-- Decoding what was encoded from `r` gives `r` back: the property of
    `encoding/json` that the storage layer relies on, stated for one record. -/
def Json.RoundTrips (j : Json) (r : StorageFormat) : Prop :=
  ∀ bytes, j.MarshalIndent r = .ok bytes → j.Unmarshal bytes = .ok r

/-! ## config.go and the world of proxy.go -/

/-- Go struct `Config`. -/
structure Config where
  StorageRoot : String
  URL : String
  ClientID : String
  ClientSecret : String
  AuthServerPort : Nat
  Scopes : List String
  deriving DecidableEq, Repr

/-- The library struct `client.OAuthConfig`, with the fields `NewProxy` sets.
    The OAuth handler of the client keeps one; `RegisterClient` fills in its
    client id and secret. -/
structure OAuthConfig where
  ClientID : String
  ClientSecret : String
  RedirectURI : String
  Scopes : List String
  TokenStore : Storage
  PKCEEnabled : Bool
  deriving DecidableEq, Repr

/-- Go struct `Proxy`. -/
structure Proxy where
  cfg : Config
  store : Storage
  oauthConfig : OAuthConfig
  redirectUrl : String
  deriving DecidableEq, Repr

/-- Calls that leave the program, recorded in the order they happen. -/
inductive Event where
  | Start
  | Initialize
  | ListTools
  | CallTool (request : String)
  | startCallbackServer (port : Nat)
  | closeCallbackServer
  | RegisterClient (name : String)
  | SaveClientInfo (clientInfo : ClientInfo)
  | GetAuthorizationURL (state codeChallenge : String)
  | openBrowser (url : String)
  | ProcessAuthorizationResponse (code state codeVerifier : String)
  | SaveToken (token : Token)
  deriving DecidableEq, Repr

/-- Everything the proxy can change: the file system, the configuration held
    by the client's OAuth handler, whether `/oauth/callback` is already
    registered on the default HTTP mux, and the history of calls, newest
    first. -/
structure World where
  fs : FS
  handler : OAuthConfig
  callbackRegistered : Bool
  trace : List Event

/-- Record a call. -/
def World.emit (w : World) (e : Event) : World := { w with trace := e :: w.trace }

/-- Outcome of a function that may reach `log.Fatalf` (or a panic): either it
    returns, or the process ends; both carry the world at that point. -/
inductive Result (α : Type) where
  | ok (val : α) (w : World)
  | fatal (msg : String) (w : World)

/-- The world a result ends in. -/
def Result.world {α : Type} : Result α → World
  | .ok _ w => w
  | .fatal _ w => w

/-- Library struct `mcp.InitializeResult`, with the fields `run` reads. -/
structure InitializeResult where
  ServerInfoName : String
  ServerInfoVersion : String
  Instructions : String
  deriving DecidableEq, Repr

/-- Library struct `server.ServerTool`: a tool and the handler `run` gives it. -/
structure ServerTool where
  Tool : String
  Handler : String → World → Result (Except Error String)

/-- Query parameters of the callback request, as the map the HTTP handler
    builds. -/
abbrev Params := List (String × String)

/-- Go map indexing `params[key]`: the zero value when the key is missing. -/
def Params.get (params : Params) (key : String) : String :=
  (params.lookup key).getD ""

/-- Everything outside this repository: the standard library beyond the file
    system, the OAuth / MCP client library, the remote server and the user's
    browser. -/
structure Env where
  json : Json
  UserHomeDir : Except Error String
  FilepathJoin : String → String → String
  FilepathAbs : String → Except Error String
  PathJoin : String → String → String
  UrlHostname : String → Except Error String
  NewOAuthStreamableHttpClient : World → Option Error
  Start : World → Option Error
  Initialize : World → Except Error InitializeResult
  ListTools : World → Except Error (List String)
  CallTool : String → World → Except Error String
  GenerateCodeVerifier : World → Except Error String
  GenerateCodeChallenge : String → String
  GenerateState : World → Except Error String
  register : String → World → Except Error ClientInfo
  authorizationURL : String → String → World → Except Error String
  callback : World → Params
  exchange : String → String → String → World → Except Error Token
  ServeStdio : InitializeResult → List ServerTool → World → Result (Option Error)

/-! ## storage.go: NewStorage -/

/-- Function `NewStorage`: expand a leading `~/`, make the path absolute.  It touches
    no file or directory; `log.Fatalf` is the `error` case. -/
def NewStorage (env : Env) (path : String) : Except String Storage :=
  let expanded : Except String String :=
    if "~/".data.isPrefixOf path.data then
      match env.UserHomeDir with
      | .error _ => .error "Failed to get home directory"
      | .ok home => .ok (env.FilepathJoin home (String.mk (path.data.drop 2)))
    else .ok path
  match expanded with
  | .error msg => .error msg
  | .ok path =>
    match env.FilepathAbs path with
    | .error _ => .error "Failed to resolve path"
    | .ok absPath => .ok { path := absPath }

/-! ## proxy.go -/

/-- Function `NewProxy`: `log.Fatalf` is the `error` case.  The stored registration is
    used only when the configuration has no client id. -/
def NewProxy (env : Env) (cfg : Config) (fs : FS) : Except String Proxy :=
  match env.UrlHostname cfg.URL with
  | .error _ => .error "Failed to parse URL"
  | .ok hostname =>
    match NewStorage env (env.PathJoin cfg.StorageRoot (hostname ++ ".json")) with
    | .error msg => .error msg
    | .ok store =>
      let cfg' : Except String Config :=
        if cfg.ClientID = "" then
          match store.GetClientInfo env.json fs with
          | .error _ => .error "Failed to get client info"
          | .ok none => .ok cfg
          | .ok (some clientInfo) =>
            .ok { cfg with ClientID := clientInfo.ID, ClientSecret := clientInfo.Secret }
        else .ok cfg
      match cfg' with
      | .error msg => .error msg
      | .ok cfg =>
        let redirectUrl := "http://localhost:" ++ toString cfg.AuthServerPort ++ "/oauth/callback"
        let oauthConfig : OAuthConfig :=
          { ClientID := cfg.ClientID
            ClientSecret := cfg.ClientSecret
            RedirectURI := redirectUrl
            Scopes := cfg.Scopes
            TokenStore := store
            PKCEEnabled := true }
        .ok { cfg := cfg, store := store, oauthConfig := oauthConfig, redirectUrl := redirectUrl }

/-- Method `Proxy.startCallbackServer`: `http.HandleFunc` registers the callback
    path on the default mux, which panics when the path is registered already;
    then the listener is started. -/
def Proxy.startCallbackServer (p : Proxy) (w : World) : Result Unit :=
  if w.callbackRegistered then .fatal "http: multiple registrations for /oauth/callback" w
  else .ok () ({ w with callbackRegistered := true }.emit (.startCallbackServer p.cfg.AuthServerPort))

/-- Library method `OAuthHandler.RegisterClient`: on success the handler's
    configuration holds the new id and secret. -/
def RegisterClient (env : Env) (name : String) (w : World) : Option Error × World :=
  let w := w.emit (.RegisterClient name)
  match env.register name w with
  | .error err => (some err, w)
  | .ok info =>
    (none, { w with handler := { w.handler with ClientID := info.ID, ClientSecret := info.Secret } })

/-- Library method `OAuthHandler.ProcessAuthorizationResponse`: exchange the
    code at the token endpoint and, on success, hand the token to the
    configured token store. -/
def ProcessAuthorizationResponse (env : Env) (code state codeVerifier : String) (w : World) :
    Option Error × World :=
  let w := w.emit (.ProcessAuthorizationResponse code state codeVerifier)
  match env.exchange code state codeVerifier w with
  | .error err => (some err, w)
  | .ok token =>
    let w := w.emit (.SaveToken token)
    match w.handler.TokenStore.SaveToken env.json w.fs (some token) with
    | (some err, fs) => (some (.wrapped "failed to save token" err), { w with fs := fs })
    | (none, fs) => (none, { w with fs := fs })

/-- Method `Proxy.maybeAuthorize`, lines 133-147: register a client when the handler
    has no client id, and persist the registration. -/
def Proxy.registerIfNeeded (p : Proxy) (env : Env) (w : World) : Result Unit :=
  if w.handler.ClientID = "" then
    match RegisterClient env "go-mcp-proxy" w with
    | (some _, w) => .fatal "Failed to register client" w
    | (none, w) =>
      let info : ClientInfo := { ID := w.handler.ClientID, Secret := w.handler.ClientSecret }
      let w := w.emit (.SaveClientInfo info)
      match p.store.SaveClientInfo env.json w.fs (some info) with
      | (some _, fs) => .fatal "Failed to save client info" { w with fs := fs }
      | (none, fs) => .ok () { w with fs := fs }
  else .ok () w

/-- Method `Proxy.maybeAuthorize`, lines 115-157: everything before the wait for the
    callback.  Returns the PKCE verifier and the state. -/
def Proxy.beginFlow (p : Proxy) (env : Env) (w : World) : Result (String × String) :=
  match p.startCallbackServer w with
  | .fatal msg w => .fatal msg w
  | .ok _ w =>
    match env.GenerateCodeVerifier w with
    | .error _ => .fatal "Failed to generate code verifier" w
    | .ok codeVerifier =>
      let codeChallenge := env.GenerateCodeChallenge codeVerifier
      match env.GenerateState w with
      | .error _ => .fatal "Failed to generate state" w
      | .ok state =>
        match p.registerIfNeeded env w with
        | .fatal msg w => .fatal msg w
        | .ok _ w =>
          let w := w.emit (.GetAuthorizationURL state codeChallenge)
          match env.authorizationURL state codeChallenge w with
          | .error _ => .fatal "Failed to get authorization URL" w
          | .ok authURL => .ok (codeVerifier, state) (w.emit (.openBrowser authURL))

/-- Method `Proxy.maybeAuthorize`, lines 159-181: take the callback, check the state
    and the code, exchange the code; the deferred `s.Close()` runs on return. -/
def Proxy.finishFlow (_p : Proxy) (env : Env) (codeVerifier state : String) (w : World) :
    Result Unit :=
  let params := env.callback w
  if params.get "state" ≠ state then .fatal "State mismatch" w
  else
    let code := params.get "code"
    if code = "" then .fatal "No authorization code received" w
    else
      match ProcessAuthorizationResponse env code state codeVerifier w with
      | (some _, w) => .fatal "Failed to process authorization response" w
      | (none, w) => .ok () (w.emit .closeCallbackServer)

/-- Method `Proxy.maybeAuthorize`: nothing unless the error is
    authorization-required; then the flow, from the callback server to the code
    exchange.  Every `log.Fatalf` ends the process. -/
def Proxy.maybeAuthorize (p : Proxy) (env : Env) (err : Error) (w : World) : Result Unit :=
  if IsOAuthAuthorizationRequiredError err then
    match p.beginFlow env w with
    | .fatal msg w => .fatal msg w
    | .ok (codeVerifier, state) w => p.finishFlow env codeVerifier state w
  else .ok () w

/-- Method `Proxy.run`, lines 218-222: start the client, with one more attempt after
    `maybeAuthorize`. -/
def Proxy.startSite (p : Proxy) (env : Env) (w : World) : Result (Option Error) :=
  let err := env.Start w
  let w := w.emit .Start
  match err with
  | none => .ok none w
  | some err =>
    match p.maybeAuthorize env err w with
    | .fatal msg w => .fatal msg w
    | .ok _ w => .ok (env.Start w) (w.emit .Start)

/-- Method `Proxy.run`, lines 240-244: initialize, with one more attempt after
    `maybeAuthorize`. -/
def Proxy.initializeSite (p : Proxy) (env : Env) (w : World) :
    Result (Except Error InitializeResult) :=
  let res := env.Initialize w
  let w := w.emit .Initialize
  match res with
  | .ok initResponse => .ok (.ok initResponse) w
  | .error err =>
    match p.maybeAuthorize env err w with
    | .fatal msg w => .fatal msg w
    | .ok _ w => .ok (env.Initialize w) (w.emit .Initialize)

/-- Method `Proxy.run`, lines 250-254: list the tools, with one more attempt after
    `maybeAuthorize`. -/
def Proxy.listToolsSite (p : Proxy) (env : Env) (w : World) :
    Result (Except Error (List String)) :=
  let res := env.ListTools w
  let w := w.emit .ListTools
  match res with
  | .ok listToolsResponse => .ok (.ok listToolsResponse) w
  | .error err =>
    match p.maybeAuthorize env err w with
    | .fatal msg w => .fatal msg w
    | .ok _ w => .ok (env.ListTools w) (w.emit .ListTools)

/-- Method `Proxy.run`, lines 263-270: the handler given to every tool. -/
def Proxy.toolHandler (p : Proxy) (env : Env) (request : String) (w : World) :
    Result (Except Error String) :=
  let res := env.CallTool request w
  let w := w.emit (.CallTool request)
  match res with
  | .ok result => .ok (.ok result) w
  | .error err =>
    match p.maybeAuthorize env err w with
    | .fatal msg w => .fatal msg w
    | .ok _ w => .ok (env.CallTool request w) (w.emit (.CallTool request))

/-- Method `Proxy.run`.  The client it creates owns the OAuth handler, configured
    with `p.oauthConfig`. -/
def Proxy.run (p : Proxy) (env : Env) (w : World) : Result (Option Error) :=
  match env.NewOAuthStreamableHttpClient w with
  | some err => .ok (some (.wrapped "failed to create client" err)) w
  | none =>
    let w := { w with handler := p.oauthConfig }
    match p.startSite env w with
    | .fatal msg w => .fatal msg w
    | .ok (some err) w => .ok (some (.wrapped "failed to start client" err)) w
    | .ok none w =>
      match p.initializeSite env w with
      | .fatal msg w => .fatal msg w
      | .ok (.error err) w => .ok (some (.wrapped "failed to initialize client" err)) w
      | .ok (.ok initResponse) w =>
        match p.listToolsSite env w with
        | .fatal msg w => .fatal msg w
        | .ok (.error err) w => .ok (some (.wrapped "failed to list tools" err)) w
        | .ok (.ok listToolsResponse) w =>
          let serverTools : List ServerTool :=
            listToolsResponse.map (fun tool => { Tool := tool, Handler := p.toolHandler env })
          env.ServeStdio initResponse serverTools w

/-! ## Counting calls in the history -/

/-- Is the event an attempt of the remote operation `op`. -/
def Event.isAttemptOf (op : Event) (e : Event) : Bool := decide (e = op)

/-- Number of attempts of the remote operation `op` made so far. -/
def World.attempts (w : World) (op : Event) : Nat := w.trace.countP op.isAttemptOf

/-- Is the event the start of an authorization flow. -/
def Event.isFlowStart : Event → Bool
  | .startCallbackServer _ => true
  | _ => false

/-- Number of authorization flows started so far. -/
def World.flows (w : World) : Nat := w.trace.countP Event.isFlowStart

/-- The code exchanges made so far, newest first, each with the code, state
    and verifier it was given. -/
def World.exchanges (w : World) : List (String × String × String) :=
  w.trace.filterMap fun e =>
    match e with
    | .ProcessAuthorizationResponse code state codeVerifier => some (code, state, codeVerifier)
    | _ => none

/-- Number of `RegisterClient` calls made so far. -/
def World.registrations (w : World) : Nat :=
  w.trace.countP fun e => match e with
    | .RegisterClient _ => true
    | _ => false

/-- Number of `SaveClientInfo` calls made so far. -/
def World.clientInfoSaves (w : World) : Nat :=
  w.trace.countP fun e => match e with
    | .SaveClientInfo _ => true
    | _ => false

/-- Number of `SaveToken` calls made so far. -/
def World.tokenSaves (w : World) : Nat :=
  w.trace.countP fun e => match e with
    | .SaveToken _ => true
    | _ => false

/-- Is the event an attempt of one of the four wrapped remote operations. -/
def Event.isRemoteOp : Event → Bool
  | .Start => true
  | .Initialize => true
  | .ListTools => true
  | .CallTool _ => true
  | _ => false

/-- Is the event one of the two calls of the client registration step. -/
def Event.isRegistrationStep : Event → Bool
  | .RegisterClient _ => true
  | .SaveClientInfo _ => true
  | _ => false

/-- Is the event one the flow can make before it waits for the callback. -/
def Event.isSetupStep : Event → Bool
  | .startCallbackServer _ => true
  | .RegisterClient _ => true
  | .SaveClientInfo _ => true
  | .GetAuthorizationURL _ _ => true
  | .openBrowser _ => true
  | _ => false

/-- Is the event one the flow can make after the callback has arrived. -/
def Event.isExchangeStep : Event → Bool
  | .ProcessAuthorizationResponse _ _ _ => true
  | .SaveToken _ => true
  | .closeCallbackServer => true
  | _ => false

/-- The value a result returns, if the process did not end. -/
def Result.value {α : Type} : Result α → Option α
  | .ok val _ => some val
  | .fatal _ _ => none

/-- The message of the fatal exit, if the process ended. -/
def Result.failure {α : Type} : Result α → Option String
  | .ok _ _ => none
  | .fatal msg _ => some msg

/-! ## Two save operations running side by side

`Storage.read` holds the read lock for the whole of its body and
`Storage.write` holds the write lock for the whole of its body, so each is one
atomic step.  A save operation is a `read` step followed by a `write` step,
with the lock released in between. -/

/-- A save operation and its argument. -/
inductive SaveOp where
  | token (t : Option Token)
  | clientInfo (c : Option ClientInfo)
  deriving DecidableEq, Repr

/-- Where a goroutine running a save operation stands: before its `read`,
    between `read` and `write` with the record it read, or returned. -/
inductive Thread where
  | ready (op : SaveOp)
  | holding (op : SaveOp) (data : Option StorageFormat)
  | returned (err : Option Error)
  deriving DecidableEq, Repr

/-- One atomic step of a goroutine: the `read` call, or the field update and
    the `write` call. -/
def Thread.step (s : Storage) (j : Json) (fs : FS) : Thread → Thread × FS
  | .ready op =>
    match s.read j fs with
    | .error err => (.returned (some err), fs)
    | .ok data => (.holding op data, fs)
  | .holding (.token t) data =>
    let data := data.getD StorageFormat.empty
    let data := { data with Token := t }
    let (err, fs) := s.write j fs data
    (.returned err, fs)
  | .holding (.clientInfo c) data =>
    let data := data.getD StorageFormat.empty
    let data := { data with ClientInfo := c }
    let (err, fs) := s.write j fs data
    (.returned err, fs)
  | .returned err => (.returned err, fs)

/-- Run two goroutines under a schedule: `false` lets the first take a step,
    `true` the second. -/
def interleave (s : Storage) (j : Json) : List Bool → Thread × Thread × FS → Thread × Thread × FS
  | [], st => st
  | false :: rest, (a, b, fs) =>
    let (a, fs) := a.step s j fs
    interleave s j rest (a, b, fs)
  | true :: rest, (a, b, fs) =>
    let (b, fs) := b.step s j fs
    interleave s j rest (a, b, fs)

/-! ## Sample inputs -/

/-- A storage under the default root of `main.go`, for a user whose home
    directory is `/home/user`. -/
def sampleStorage : Storage := { path := "/home/user/.go-mcp-proxy/example.com.json" }

/-- The registration of the spec's scenario. -/
def sampleClient : ClientInfo := { ID := "abc", Secret := "xyz" }

/-- A registration whose id is the empty string. -/
def sampleBlankClient : ClientInfo := { ID := "", Secret := "s3cret" }

/-- The token of the spec's scenario. -/
def sampleToken : Token := { access := "tok1" }

/-- Text form of a record, used by `sampleJson`. -/
def sampleRender (r : StorageFormat) : String :=
  let client :=
    match r.ClientInfo with
    | none => "null"
    | some c => "(id " ++ c.ID ++ ", secret " ++ c.Secret ++ ")"
  let token :=
    match r.Token with
    | none => "null"
    | some t => "(access " ++ t.access ++ ")"
  "client_info: " ++ client ++ "; token: " ++ token

/-- The records `sampleJson` can decode. -/
def sampleRecords : List StorageFormat :=
  [ { ClientInfo := none, Token := none },
    { ClientInfo := some sampleClient, Token := none },
    { ClientInfo := none, Token := some sampleToken },
    { ClientInfo := some sampleClient, Token := some sampleToken },
    { ClientInfo := some sampleBlankClient, Token := none } ]

/-- A small codec standing in for `encoding/json` on sample inputs: it
    encodes with `sampleRender` and decodes exactly the texts of
    `sampleRecords`; any other text is malformed. -/
def sampleJson : Json where
  MarshalIndent := fun r => .ok (sampleRender r)
  Unmarshal := fun bytes =>
    match sampleRecords.find? (fun r => sampleRender r == bytes) with
    | some r => .ok r
    | none => .error (.jsonError "invalid character")

/-- A file system where the root directory exists and is empty. -/
def fsRootOnly : FS :=
  fun p => if p = "/home/user" ∨ p = "/home/user/.go-mcp-proxy" then some .dir else none

/-- A file system where the home directory exists and the root directory
    does not. -/
def fsNoRoot : FS := fun p => if p = "/home/user" then some .dir else none

/-- A file system where a regular file stands in place of the root
    directory. -/
def fsRootIsFile : FS := fsNoRoot.set "/home/user/.go-mcp-proxy" (.file "x" 0o644)

/-- A file system whose credential file holds the given text. -/
def fsWithFile (content : String) : FS :=
  fun p =>
    if p = "/home/user" ∨ p = "/home/user/.go-mcp-proxy" then some .dir
    else if p = "/home/user/.go-mcp-proxy/example.com.json" then some (.file content 0o600)
    else none

/-- A file system whose credential file holds `sampleBlankClient` and no
    token. -/
def fsBlankClient : FS :=
  fsWithFile (sampleRender { ClientInfo := some sampleBlankClient, Token := none })

/-- The configuration `main.go` builds from its defaults for the target
    `https://example.com/mcp`, with the given client id. -/
def sampleConfig (clientID : String) : Config :=
  { StorageRoot := "~/.go-mcp-proxy"
    URL := "https://example.com/mcp"
    ClientID := clientID
    ClientSecret := ""
    AuthServerPort := 8080
    Scopes := ["openid", "profile", "email"] }

/-- A scripted environment.  Every remote operation fails with `firstError`
    on its first attempt and succeeds afterwards; registration returns
    `sampleClient`; the generated state is `s2`; the callback delivers
    `params`; the code exchange returns `sampleToken`. -/
def sampleEnv (firstError : Error) (params : Params) : Env where
  json := sampleJson
  UserHomeDir := .ok "/home/user"
  FilepathJoin := fun a b => a ++ "/" ++ b
  FilepathAbs := fun path => .ok path
  PathJoin := fun a b => a ++ "/" ++ b
  UrlHostname := fun _ => .ok "example.com"
  NewOAuthStreamableHttpClient := fun _ => none
  Start := fun w => if w.attempts .Start = 0 then some firstError else none
  Initialize := fun w =>
    if w.attempts .Initialize = 0 then .error firstError
    else .ok { ServerInfoName := "remote", ServerInfoVersion := "1.0", Instructions := "" }
  ListTools := fun w => if w.attempts .ListTools = 0 then .error firstError else .ok ["echo"]
  CallTool := fun request w =>
    if w.attempts (.CallTool request) = 0 then .error firstError else .ok ("result of " ++ request)
  GenerateCodeVerifier := fun _ => .ok "verifier"
  GenerateCodeChallenge := fun verifier => "challenge of " ++ verifier
  GenerateState := fun _ => .ok "s2"
  register := fun _ _ => .ok sampleClient
  authorizationURL := fun state _ _ => .ok ("https://example.com/authorize?state=" ++ state)
  callback := fun _ => params
  exchange := fun _ _ _ _ => .ok sampleToken
  ServeStdio := fun _ _ w => .ok none w

/-- The proxy `NewProxy` builds from `sampleConfig clientID` when the store
    holds no registration. -/
def sampleProxy (clientID : String) : Proxy :=
  { cfg := sampleConfig clientID
    store := sampleStorage
    oauthConfig :=
      { ClientID := clientID
        ClientSecret := ""
        RedirectURI := "http://localhost:8080/oauth/callback"
        Scopes := ["openid", "profile", "email"]
        TokenStore := sampleStorage
        PKCEEnabled := true }
    redirectUrl := "http://localhost:8080/oauth/callback" }

/-- The proxy `NewProxy` builds from `sampleConfig ""` when the store holds
    the registration `info`. -/
def sampleStoredProxy (info : ClientInfo) : Proxy :=
  { cfg := { sampleConfig "" with ClientID := info.ID, ClientSecret := info.Secret }
    store := sampleStorage
    oauthConfig :=
      { ClientID := info.ID
        ClientSecret := info.Secret
        RedirectURI := "http://localhost:8080/oauth/callback"
        Scopes := ["openid", "profile", "email"]
        TokenStore := sampleStorage
        PKCEEnabled := true }
    redirectUrl := "http://localhost:8080/oauth/callback" }

/-- The world right after `run` has created the client of
    `sampleStoredProxy sampleBlankClient`, on the file system that holds that
    registration. -/
def sampleBlankWorld : World :=
  { fs := fsBlankClient
    handler := (sampleStoredProxy sampleBlankClient).oauthConfig
    callbackRegistered := false
    trace := [] }

/-- The world right after `run` has created the client of `sampleProxy`, on
    the given file system. -/
def sampleWorld (clientID : String) (fs : FS) : World :=
  { fs := fs
    handler := (sampleProxy clientID).oauthConfig
    callbackRegistered := false
    trace := [] }

/-! ## Storage: basic facts -/

theorem FS.set_same (fs : FS) (path : String) (n : Node) : fs.set path n path = some n := by
  simp [FS.set]

theorem FS.set_other (fs : FS) (path q : String) (n : Node) (h : q ≠ path) :
    fs.set path n q = fs q := by
  simp [FS.set, h]

theorem notDirAbove_parent_dir (fs : FS) (fuel : Nat) (path : String)
    (h : fs (parentOf path) = some .dir) : notDirAbove fs fuel path = false := by
  cases fuel with
  | zero => rfl
  | succ n => simp [notDirAbove, h]

theorem lookupError_parent_dir (fs : FS) (path : String)
    (h : fs (parentOf path) = some .dir) : lookupError fs path = .notExist path := by
  simp [lookupError, notDirAbove_parent_dir fs _ path h]

/-- A path that names nothing and has no regular file above it: `read`
    reports "nothing stored". -/
theorem Storage.read_missing (s : Storage) (j : Json) (fs : FS) (h : fs s.path = none)
    (hd : notDirAbove fs s.path.length s.path = false) :
    s.read j fs = .ok none := by
  simp [Storage.read, Stat, h, lookupError, hd, IsNotExist]

/-- A path that names nothing below a regular file: `os.Stat` gives ENOTDIR,
    which is not not-exist, and `read` returns the error of `os.ReadFile`. -/
theorem Storage.read_blocked (s : Storage) (j : Json) (fs : FS) (h : fs s.path = none)
    (hd : notDirAbove fs s.path.length s.path = true) :
    s.read j fs = .error (.notDirectory s.path) := by
  simp [Storage.read, Stat, ReadFile, h, lookupError, hd, IsNotExist]

theorem Storage.read_file (s : Storage) (j : Json) (fs : FS) (content : String) (perm : Nat)
    (h : fs s.path = some (.file content perm)) :
    s.read j fs =
      match j.Unmarshal content with
      | .error err => .error err
      | .ok data => .ok (some data) := by
  simp [Storage.read, Stat, ReadFile, h]

theorem Storage.read_dir (s : Storage) (j : Json) (fs : FS) (h : fs s.path = some .dir) :
    s.read j fs = .error (.isDirectory s.path) := by
  simp [Storage.read, Stat, ReadFile, h]

/-- A write that fails leaves the file system as it was. -/
theorem WriteFile_error (fs fs' : FS) (path data : String) (perm : Nat) (err : Error)
    (h : WriteFile fs path data perm = (some err, fs')) : fs' = fs := by
  unfold WriteFile at h
  split at h
  · simp at h
  · simp at h; exact h.2.symm
  · split at h
    · simp at h
    · simp at h; exact h.2.symm

/-- A write that succeeds leaves a regular file with the data written, and
    changes no other path. -/
theorem WriteFile_ok (fs fs' : FS) (path data : String) (perm : Nat)
    (h : WriteFile fs path data perm = (none, fs')) :
    (∃ p, fs' path = some (.file data p)) ∧ ∀ q, q ≠ path → fs' q = fs q := by
  unfold WriteFile at h
  split at h
  · next p _ =>
    simp at h; subst h
    exact ⟨⟨p, FS.set_same _ _ _⟩, fun q hq => FS.set_other _ _ _ _ hq⟩
  · simp at h
  · split at h
    · simp at h; subst h
      exact ⟨⟨perm, FS.set_same _ _ _⟩, fun q hq => FS.set_other _ _ _ _ hq⟩
    · simp at h

theorem Storage.write_error (s : Storage) (j : Json) (fs fs' : FS) (r : StorageFormat)
    (err : Error) (h : s.write j fs r = (some err, fs')) : fs' = fs := by
  unfold Storage.write at h
  split at h
  · simp at h; exact h.2.symm
  · exact WriteFile_error _ _ _ _ _ _ h

/-- After a successful write of `r`, the file decodes to `r` when the codec
    round-trips on `r`. -/
theorem Storage.read_after_write (s : Storage) (j : Json) (fs fs' : FS) (r : StorageFormat)
    (hrt : j.RoundTrips r) (h : s.write j fs r = (none, fs')) :
    s.read j fs' = .ok (some r) := by
  unfold Storage.write at h
  split at h
  · simp at h
  · next bytes hm =>
    obtain ⟨⟨p, hp⟩, _⟩ := WriteFile_ok _ _ _ _ _ h
    rw [Storage.read_file s j fs' bytes p hp, hrt bytes hm]

theorem Storage.SaveToken_error (s : Storage) (j : Json) (fs fs' : FS) (t : Option Token)
    (err : Error) (h : s.SaveToken j fs t = (some err, fs')) : fs' = fs := by
  unfold Storage.SaveToken at h
  split at h
  · simp at h; exact h.2.symm
  · exact Storage.write_error _ _ _ _ _ _ h

theorem Storage.SaveClientInfo_error (s : Storage) (j : Json) (fs fs' : FS)
    (c : Option ClientInfo) (err : Error) (h : s.SaveClientInfo j fs c = (some err, fs')) :
    fs' = fs := by
  unfold Storage.SaveClientInfo at h
  split at h
  · simp at h; exact h.2.symm
  · exact Storage.write_error _ _ _ _ _ _ h

theorem Storage.SaveToken_of_persisted (s : Storage) (j : Json) (fs : FS) (r : StorageFormat)
    (t : Option Token) (h : s.persisted j fs = .ok r) :
    s.SaveToken j fs t = s.write j fs { r with Token := t } := by
  unfold Storage.persisted at h
  unfold Storage.SaveToken
  split at h
  · simp at h
  · next data hd =>
    simp only [Except.ok.injEq] at h
    simp only [hd, h]

theorem Storage.SaveClientInfo_of_persisted (s : Storage) (j : Json) (fs : FS)
    (r : StorageFormat) (c : Option ClientInfo) (h : s.persisted j fs = .ok r) :
    s.SaveClientInfo j fs c = s.write j fs { r with ClientInfo := c } := by
  unfold Storage.persisted at h
  unfold Storage.SaveClientInfo
  split at h
  · simp at h
  · next data hd =>
    simp only [Except.ok.injEq] at h
    simp only [hd, h]

theorem Storage.persisted_after_write (s : Storage) (j : Json) (fs fs' : FS) (r : StorageFormat)
    (hrt : j.RoundTrips r) (h : s.write j fs r = (none, fs')) :
    s.persisted j fs' = .ok r := by
  simp [Storage.persisted, Storage.read_after_write s j fs fs' r hrt h]

/-! ## Storage: read-modify-write preservation -/

/-- C1: in sequential use, from a persisted record with registration `c` and
    token `t0` (a missing file being the empty record), a successful
    `SaveToken t` leaves the record with token `t` and registration still `c`,
    and a successful `SaveClientInfo c'` leaves the record with registration
    `c'` and token still `t0`; from the empty record, saving the registration
    `abc`/`xyz` and then the token `tok1` ends with both in the record.  The
    codec is assumed to decode what it encoded for the record written. -/
theorem save_preserves_other_field (s : Storage) (j : Json) (fs : FS)
    (c : Option ClientInfo) (t0 : Option Token)
    (h : s.persisted j fs = .ok { ClientInfo := c, Token := t0 }) :
    (∀ t fs', j.RoundTrips { ClientInfo := c, Token := t } →
        s.SaveToken j fs t = (none, fs') →
        s.persisted j fs' = .ok { ClientInfo := c, Token := t }) ∧
    (∀ c' fs', j.RoundTrips { ClientInfo := c', Token := t0 } →
        s.SaveClientInfo j fs c' = (none, fs') →
        s.persisted j fs' = .ok { ClientInfo := c', Token := t0 }) ∧
    (c = none → t0 = none → ∀ fs1 fs2,
        j.RoundTrips { ClientInfo := some sampleClient, Token := none } →
        j.RoundTrips { ClientInfo := some sampleClient, Token := some sampleToken } →
        s.SaveClientInfo j fs (some sampleClient) = (none, fs1) →
        s.SaveToken j fs1 (some sampleToken) = (none, fs2) →
        s.persisted j fs2 =
          .ok { ClientInfo := some sampleClient, Token := some sampleToken }) := by
  have hTok : ∀ (fs fs' : FS) (c : Option ClientInfo) (t0 t : Option Token),
      s.persisted j fs = .ok { ClientInfo := c, Token := t0 } →
      j.RoundTrips { ClientInfo := c, Token := t } →
      s.SaveToken j fs t = (none, fs') →
      s.persisted j fs' = .ok { ClientInfo := c, Token := t } := by
    intro fs fs' c t0 t hp hrt hsave
    rw [Storage.SaveToken_of_persisted s j fs _ t hp] at hsave
    exact Storage.persisted_after_write s j fs fs' _ hrt hsave
  have hCli : ∀ (fs fs' : FS) (c c' : Option ClientInfo) (t0 : Option Token),
      s.persisted j fs = .ok { ClientInfo := c, Token := t0 } →
      j.RoundTrips { ClientInfo := c', Token := t0 } →
      s.SaveClientInfo j fs c' = (none, fs') →
      s.persisted j fs' = .ok { ClientInfo := c', Token := t0 } := by
    intro fs fs' c c' t0 hp hrt hsave
    rw [Storage.SaveClientInfo_of_persisted s j fs _ c' hp] at hsave
    exact Storage.persisted_after_write s j fs fs' _ hrt hsave
  refine ⟨fun t fs' hrt hsave => hTok fs fs' c t0 t h hrt hsave,
    fun c' fs' hrt hsave => hCli fs fs' c c' t0 h hrt hsave, ?_⟩
  intro hc ht fs1 fs2 hrt1 hrt2 hs1 hs2
  subst hc ht
  exact hTok fs1 fs2 _ none _ (hCli fs fs1 none _ none h hrt1 hs1) hrt2 hs2

/-- Witness for C1: on an empty root directory, with the sample codec, the
    scenario of the spec runs and ends with both fields in the record. -/
theorem save_preserves_other_field_witness :
    sampleStorage.persisted sampleJson fsRootOnly = .ok { ClientInfo := none, Token := none } ∧
    sampleStorage.persisted sampleJson
        (sampleStorage.SaveToken sampleJson
          (sampleStorage.SaveClientInfo sampleJson fsRootOnly (some sampleClient)).2
          (some sampleToken)).2 =
      .ok { ClientInfo := some sampleClient, Token := some sampleToken } :=
  ⟨by decide,
   (save_preserves_other_field sampleStorage sampleJson fsRootOnly none none (by decide)).2.2
     rfl rfl
     (sampleStorage.SaveClientInfo sampleJson fsRootOnly (some sampleClient)).2
     (sampleStorage.SaveToken sampleJson
       (sampleStorage.SaveClientInfo sampleJson fsRootOnly (some sampleClient)).2
       (some sampleToken)).2
     (by intro bytes hb; cases hb; decide)
     (by intro bytes hb; cases hb; decide)
     (Prod.ext (by decide) rfl) (Prod.ext (by decide) rfl)⟩

/-! ## Storage: missing and malformed files -/

theorem Storage.read_of_Stat_notExist (s : Storage) (j : Json) (fs : FS)
    (h : Stat fs s.path = .error (.notExist s.path)) : s.read j fs = .ok none := by
  simp [Storage.read, h, IsNotExist]

theorem Storage.read_of_Stat_notDirectory (s : Storage) (j : Json) (fs : FS)
    (h : Stat fs s.path = .error (.notDirectory s.path)) :
    s.read j fs = .error (.notDirectory s.path) := by
  have hnone : fs s.path = none := by
    unfold Stat at h
    split at h
    · cases h
    · assumption
  have hl : lookupError fs s.path = .notDirectory s.path := by
    simpa [Stat, hnone] using h
  simp [Storage.read, h, IsNotExist, ReadFile, hnone, hl]

/-- C5, counterexample: a regular file stands in place of the root
    directory, so the credential file does not exist.  `os.Stat` gives
    ENOTDIR, which `os.IsNotExist` does not accept, and both `GetClientInfo`
    and `GetToken` return the I/O error of `os.ReadFile` instead of
    "nothing stored". -/
theorem missing_file_below_regular_file_is_error :
    fsRootIsFile sampleStorage.path = none ∧
    fsRootIsFile (parentOf sampleStorage.path) = some (.file "x" 0o644) ∧
    Stat fsRootIsFile sampleStorage.path = .error (.notDirectory sampleStorage.path) ∧
    IsNotExist (.notDirectory sampleStorage.path) = false ∧
    sampleStorage.GetClientInfo sampleJson fsRootIsFile =
      .error (.notDirectory sampleStorage.path) ∧
    sampleStorage.GetToken sampleJson fsRootIsFile =
      .error (.notDirectory sampleStorage.path) := by
  decide

/-- C5, amended: when `os.Stat` reports that the file does not exist
    (ENOENT), `GetClientInfo` returns a null registration without error and
    `GetToken` returns `ErrNoToken` (both only read the file system, so
    nothing is created).  When the file is missing because a regular file
    stands in place of one of its directories (`os.Stat` gives ENOTDIR), both
    return that I/O error.  `GetToken` also returns `ErrNoToken` when the file
    holds a record with a null token, and returns the stored token when the
    record has one. -/
theorem missing_file_is_not_found (s : Storage) (j : Json) (fs : FS) :
    (Stat fs s.path = .error (.notExist s.path) →
      s.GetClientInfo j fs = .ok none ∧ s.GetToken j fs = .error .ErrNoToken) ∧
    (Stat fs s.path = .error (.notDirectory s.path) →
      s.GetClientInfo j fs = .error (.notDirectory s.path) ∧
      s.GetToken j fs = .error (.notDirectory s.path)) ∧
    (∀ content perm c, fs s.path = some (.file content perm) →
      j.Unmarshal content = .ok { ClientInfo := c, Token := none } →
      s.GetToken j fs = .error .ErrNoToken) ∧
    (∀ content perm c token, fs s.path = some (.file content perm) →
      j.Unmarshal content = .ok { ClientInfo := c, Token := some token } →
      s.GetToken j fs = .ok token) := by
  refine ⟨fun h => ?_, fun h => ?_, fun content perm c hf hu => ?_,
    fun content perm c token hf hu => ?_⟩
  · simp [Storage.GetClientInfo, Storage.GetToken, Storage.read_of_Stat_notExist s j fs h]
  · simp [Storage.GetClientInfo, Storage.GetToken, Storage.read_of_Stat_notDirectory s j fs h]
  · simp [Storage.GetToken, Storage.read_file s j fs content perm hf, hu]
  · simp [Storage.GetToken, Storage.read_file s j fs content perm hf, hu]

/-- Witness for the amended C5: with the root directory missing below an
    existing home directory both reads report "nothing stored"; a file holding
    only a registration has no token; a file holding a token gives it back. -/
theorem missing_file_is_not_found_witness :
    (sampleStorage.GetClientInfo sampleJson fsNoRoot = .ok none ∧
      sampleStorage.GetToken sampleJson fsNoRoot = .error .ErrNoToken) ∧
    sampleStorage.GetToken sampleJson
        (fsWithFile (sampleRender { ClientInfo := some sampleClient, Token := none })) =
      .error .ErrNoToken ∧
    sampleStorage.GetToken sampleJson
        (fsWithFile (sampleRender { ClientInfo := none, Token := some sampleToken })) =
      .ok sampleToken :=
  ⟨(missing_file_is_not_found sampleStorage sampleJson fsNoRoot).1 (by decide),
   (missing_file_is_not_found sampleStorage sampleJson _).2.2.1
     (sampleRender { ClientInfo := some sampleClient, Token := none }) 0o600 (some sampleClient)
     (by decide) (by decide),
   (missing_file_is_not_found sampleStorage sampleJson _).2.2.2
     (sampleRender { ClientInfo := none, Token := some sampleToken }) 0o600 none sampleToken
     (by decide) (by decide)⟩

/-- C6: when the file exists and does not decode, `GetToken`,
    `GetClientInfo`, `SaveToken` and `SaveClientInfo` all return the decoding
    error, and the two save operations leave the file system exactly as it
    was. -/
theorem malformed_file_is_hard_error (s : Storage) (j : Json) (fs : FS)
    (content : String) (perm : Nat) (err : Error)
    (hfile : fs s.path = some (.file content perm))
    (hbad : j.Unmarshal content = .error err) :
    s.GetToken j fs = .error err ∧
    s.GetClientInfo j fs = .error err ∧
    (∀ token, s.SaveToken j fs token = (some err, fs)) ∧
    (∀ clientInfo, s.SaveClientInfo j fs clientInfo = (some err, fs)) := by
  have hr : s.read j fs = .error err := by
    rw [Storage.read_file s j fs content perm hfile, hbad]
  refine ⟨?_, ?_, fun token => ?_, fun clientInfo => ?_⟩
  · simp [Storage.GetToken, hr]
  · simp [Storage.GetClientInfo, hr]
  · simp [Storage.SaveToken, hr]
  · simp [Storage.SaveClientInfo, hr]

/-- Witness for C6: a credential file holding `not json`. -/
theorem malformed_file_is_hard_error_witness :
    sampleStorage.GetToken sampleJson (fsWithFile "not json") =
      .error (.jsonError "invalid character") ∧
    sampleStorage.GetClientInfo sampleJson (fsWithFile "not json") =
      .error (.jsonError "invalid character") ∧
    (∀ token, sampleStorage.SaveToken sampleJson (fsWithFile "not json") token =
      (some (.jsonError "invalid character"), fsWithFile "not json")) ∧
    (∀ clientInfo, sampleStorage.SaveClientInfo sampleJson (fsWithFile "not json") clientInfo =
      (some (.jsonError "invalid character"), fsWithFile "not json")) :=
  malformed_file_is_hard_error sampleStorage sampleJson (fsWithFile "not json") "not json" 0o600
    (.jsonError "invalid character") (by decide) (by decide)

/-! ## Storage: the first write and the root directory -/

theorem Storage.write_fresh (s : Storage) (j : Json) (fs : FS) (r : StorageFormat)
    (bytes : String) (hdir : fs (parentOf s.path) = some .dir) (hnone : fs s.path = none)
    (hm : j.MarshalIndent r = .ok bytes) :
    s.write j fs r = (none, fs.set s.path (.file bytes 0o600)) := by
  simp [Storage.write, hm, WriteFile, hnone, hdir]

theorem Storage.write_no_root (s : Storage) (j : Json) (fs : FS) (r : StorageFormat)
    (hdir : fs (parentOf s.path) ≠ some .dir) (hnone : fs s.path = none) :
    (s.write j fs r).1 ≠ none ∧ (s.write j fs r).2 = fs := by
  unfold Storage.write
  split
  · simp
  · unfold WriteFile
    simp only [hnone]
    simp

/-- C9, counterexample: for the default data path, with the home directory
    present and the root directory `~/.go-mcp-proxy` missing, `NewProxy` and
    `NewStorage` give the storage on `/home/user/.go-mcp-proxy/example.com.json`
    and the first `SaveToken` and the first `SaveClientInfo` both return the
    not-exist error of the write; the root directory is still missing
    afterwards and nothing was stored. -/
theorem first_save_without_root_fails :
    (NewProxy (sampleEnv .OAuthAuthorizationRequired []) (sampleConfig "") fsNoRoot).map
        (fun p => p.store) = .ok sampleStorage ∧
    NewStorage (sampleEnv .OAuthAuthorizationRequired []) "~/.go-mcp-proxy/example.com.json" =
      .ok sampleStorage ∧
    fsNoRoot (parentOf sampleStorage.path) = none ∧
    (sampleStorage.SaveToken sampleJson fsNoRoot (some sampleToken)).1 =
      some (.notExist sampleStorage.path) ∧
    (sampleStorage.SaveToken sampleJson fsNoRoot (some sampleToken)).2
      (parentOf sampleStorage.path) = none ∧
    sampleStorage.GetToken sampleJson
      (sampleStorage.SaveToken sampleJson fsNoRoot (some sampleToken)).2 = .error .ErrNoToken ∧
    (sampleStorage.SaveClientInfo sampleJson fsNoRoot (some sampleClient)).1 =
      some (.notExist sampleStorage.path) ∧
    (sampleStorage.SaveClientInfo sampleJson fsNoRoot (some sampleClient)).2
      (parentOf sampleStorage.path) = none ∧
    sampleStorage.GetClientInfo sampleJson
      (sampleStorage.SaveClientInfo sampleJson fsNoRoot (some sampleClient)).2 = .ok none := by
  decide

/-- C9, amended: on a path whose root directory exists and where no file
    exists yet, the first `SaveToken` or `SaveClientInfo` succeeds, creates the
    file with mode 0600 holding the whole encoded record, changes no other
    path, and a following `GetToken` / `GetClientInfo` returns what was saved.
    The storage never creates the root directory: when it is missing, the call
    fails and leaves the file system exactly as it was. -/
theorem first_save_needs_root (s : Storage) (j : Json) (fs : FS) (hnone : fs s.path = none) :
    (fs (parentOf s.path) = some .dir →
      (∀ token bytes,
        j.MarshalIndent { ClientInfo := none, Token := some token } = .ok bytes →
        j.RoundTrips { ClientInfo := none, Token := some token } →
        ∃ fs', s.SaveToken j fs (some token) = (none, fs') ∧
          fs' s.path = some (.file bytes 0o600) ∧
          (∀ q, q ≠ s.path → fs' q = fs q) ∧
          s.GetToken j fs' = .ok token) ∧
      (∀ info bytes,
        j.MarshalIndent { ClientInfo := some info, Token := none } = .ok bytes →
        j.RoundTrips { ClientInfo := some info, Token := none } →
        ∃ fs', s.SaveClientInfo j fs (some info) = (none, fs') ∧
          fs' s.path = some (.file bytes 0o600) ∧
          (∀ q, q ≠ s.path → fs' q = fs q) ∧
          s.GetClientInfo j fs' = .ok (some info))) ∧
    (fs (parentOf s.path) ≠ some .dir →
      (∀ token, (s.SaveToken j fs token).1 ≠ none ∧ (s.SaveToken j fs token).2 = fs) ∧
      (∀ info, (s.SaveClientInfo j fs info).1 ≠ none ∧ (s.SaveClientInfo j fs info).2 = fs)) := by
  have hpOf : notDirAbove fs s.path.length s.path = false →
      s.persisted j fs = .ok { ClientInfo := none, Token := none } := by
    intro hd
    simp [Storage.persisted, Storage.read_missing s j fs hnone hd, StorageFormat.empty]
  have hfail : fs (parentOf s.path) ≠ some .dir →
      (∀ token, (s.SaveToken j fs token).1 ≠ none ∧ (s.SaveToken j fs token).2 = fs) ∧
      (∀ info, (s.SaveClientInfo j fs info).1 ≠ none ∧ (s.SaveClientInfo j fs info).2 = fs) := by
    intro hdir
    cases hd : notDirAbove fs s.path.length s.path with
    | true =>
      have hr := Storage.read_blocked s j fs hnone hd
      exact ⟨fun token => by simp [Storage.SaveToken, hr],
        fun info => by simp [Storage.SaveClientInfo, hr]⟩
    | false =>
      have hp := hpOf hd
      refine ⟨fun token => ?_, fun info => ?_⟩
      · rw [Storage.SaveToken_of_persisted s j fs _ token hp]
        exact Storage.write_no_root s j fs _ hdir hnone
      · rw [Storage.SaveClientInfo_of_persisted s j fs _ info hp]
        exact Storage.write_no_root s j fs _ hdir hnone
  refine ⟨fun hdir => ?_, hfail⟩
  have hp := hpOf (notDirAbove_parent_dir fs _ s.path hdir)
  refine ⟨fun token bytes hm hrt => ?_, fun info bytes hm hrt => ?_⟩
  · have hw := Storage.write_fresh s j fs _ bytes hdir hnone hm
    refine ⟨_, ?_, FS.set_same _ _ _, fun q hq => FS.set_other _ _ _ _ hq, ?_⟩
    · rw [Storage.SaveToken_of_persisted s j fs _ (some token) hp]; exact hw
    · simp [Storage.GetToken, Storage.read_after_write s j fs _ _ hrt hw]
  · have hw := Storage.write_fresh s j fs _ bytes hdir hnone hm
    refine ⟨_, ?_, FS.set_same _ _ _, fun q hq => FS.set_other _ _ _ _ hq, ?_⟩
    · rw [Storage.SaveClientInfo_of_persisted s j fs _ (some info) hp]; exact hw
    · simp [Storage.GetClientInfo, Storage.read_after_write s j fs _ _ hrt hw]

/-- Witness for the amended C9: with the root directory present the first
    `SaveToken` stores the token and `GetToken` returns it. -/
theorem first_save_needs_root_witness :
    fsRootOnly sampleStorage.path = none ∧
    fsRootOnly (parentOf sampleStorage.path) = some .dir ∧
    ∃ fs', sampleStorage.SaveToken sampleJson fsRootOnly (some sampleToken) = (none, fs') ∧
      fs' sampleStorage.path =
        some (.file (sampleRender { ClientInfo := none, Token := some sampleToken }) 0o600) ∧
      (∀ q, q ≠ sampleStorage.path → fs' q = fsRootOnly q) ∧
      sampleStorage.GetToken sampleJson fs' = .ok sampleToken :=
  ⟨by decide, by decide,
   ((first_save_needs_root sampleStorage sampleJson fsRootOnly (by decide)).1 (by decide)).1
     sampleToken (sampleRender { ClientInfo := none, Token := some sampleToken }) rfl
     (by intro bytes hb; cases hb; decide)⟩

/-! ## The authorization flow: what each step does to the world -/

/-- Without an authorization-required error `maybeAuthorize` does nothing. -/
theorem Proxy.maybeAuthorize_other (p : Proxy) (env : Env) (err : Error) (w : World)
    (h : IsOAuthAuthorizationRequiredError err = false) :
    p.maybeAuthorize env err w = .ok () w := by
  simp [Proxy.maybeAuthorize, h]

/-- With an authorization-required error `maybeAuthorize` is the flow. -/
theorem Proxy.maybeAuthorize_auth (p : Proxy) (env : Env) (err : Error) (w : World)
    (h : IsOAuthAuthorizationRequiredError err = true) :
    p.maybeAuthorize env err w =
      match p.beginFlow env w with
      | .fatal msg w => .fatal msg w
      | .ok (codeVerifier, state) w => p.finishFlow env codeVerifier state w := by
  simp [Proxy.maybeAuthorize, h]

/-- What the registration step leaves behind: nothing when the handler has a
    client id; otherwise a `RegisterClient` call and, when that succeeded, a
    `SaveClientInfo` call, which is the only thing that can change the file
    system. -/
theorem Proxy.registerIfNeeded_spec (p : Proxy) (env : Env) (w : World) :
    ∃ added, (p.registerIfNeeded env w).world.trace = added ++ w.trace ∧
      (∀ e ∈ added, e.isRegistrationStep = true) ∧
      (w.handler.ClientID ≠ "" → p.registerIfNeeded env w = .ok () w) ∧
      ((p.registerIfNeeded env w).world.fs = w.fs ∨
        w.handler.ClientID = "" ∧ ∃ info, p.store.SaveClientInfo env.json w.fs (some info) =
          (none, (p.registerIfNeeded env w).world.fs)) := by
  by_cases h : w.handler.ClientID = ""
  · simp only [Proxy.registerIfNeeded, h, if_true, RegisterClient]
    cases hreg : env.register "go-mcp-proxy" (w.emit (.RegisterClient "go-mcp-proxy")) with
    | error e =>
      exact ⟨[.RegisterClient "go-mcp-proxy"], by
        simp [Result.world, World.emit, Event.isRegistrationStep]⟩
    | ok info =>
      simp only [World.emit]
      cases hsave : p.store.SaveClientInfo env.json w.fs (some info) with
      | mk e fs' =>
        cases e with
        | none =>
          refine ⟨[.SaveClientInfo info, .RegisterClient "go-mcp-proxy"], ?_, ?_, ?_, ?_⟩
          · simp [Result.world, hsave]
          · simp [Event.isRegistrationStep]
          · simp [h]
          · right
            exact ⟨trivial, info, by simp [Result.world, hsave]⟩
        | some e =>
          have := Storage.SaveClientInfo_error _ _ _ _ _ _ hsave
          exact ⟨[.SaveClientInfo info, .RegisterClient "go-mcp-proxy"], by
            simp [Result.world, hsave, this, Event.isRegistrationStep]⟩
  · exact ⟨[], by simp [Proxy.registerIfNeeded, h, Result.world]⟩

/-- What the part of the flow before the callback leaves behind. -/
theorem Proxy.beginFlow_spec (p : Proxy) (env : Env) (w : World) :
    ∃ added, (p.beginFlow env w).world.trace = added ++ w.trace ∧
      (∀ e ∈ added, e.isSetupStep = true) ∧
      (w.handler.ClientID ≠ "" → ∀ e ∈ added, e.isRegistrationStep = false) ∧
      ((p.beginFlow env w).value ≠ none → added.countP Event.isFlowStart = 1) ∧
      (w.handler.ClientID ≠ "" → (p.beginFlow env w).world.fs = w.fs) ∧
      ((p.beginFlow env w).world.fs = w.fs ∨
        w.handler.ClientID = "" ∧ ∃ info, p.store.SaveClientInfo env.json w.fs (some info) =
          (none, (p.beginFlow env w).world.fs)) := by
  unfold Proxy.beginFlow Proxy.startCallbackServer
  by_cases hreg : w.callbackRegistered = true
  · exact ⟨[], by simp [hreg, Result.world, Result.value]⟩
  · simp only [hreg]
    generalize hw0 : ({ w with callbackRegistered := true } : World).emit
      (.startCallbackServer p.cfg.AuthServerPort) = w0
    have ht0 : w0.trace = .startCallbackServer p.cfg.AuthServerPort :: w.trace := by
      subst hw0; rfl
    have hf0 : w0.fs = w.fs := by subst hw0; rfl
    have hh0 : w0.handler = w.handler := by subst hw0; rfl
    simp only [Bool.false_eq_true, if_false]
    cases env.GenerateCodeVerifier w0 with
    | error e =>
      exact ⟨[.startCallbackServer p.cfg.AuthServerPort], by
        simp [Result.world, Result.value, ht0, hf0, Event.isSetupStep, Event.isRegistrationStep]⟩
    | ok codeVerifier =>
      cases env.GenerateState w0 with
      | error e =>
        exact ⟨[.startCallbackServer p.cfg.AuthServerPort], by
          simp [Result.world, Result.value, ht0, hf0, Event.isSetupStep,
            Event.isRegistrationStep]⟩
      | ok state =>
        obtain ⟨reg, hrt, hrs, hrid, hrfs⟩ := p.registerIfNeeded_spec env w0
        rw [hh0, hf0] at hrfs
        rw [hh0] at hrid
        have hregSetup : ∀ e ∈ reg, e.isSetupStep = true := by
          intro e he
          have := hrs e he
          cases e <;> simp_all [Event.isSetupStep, Event.isRegistrationStep]
        have hregFlow : reg.countP Event.isFlowStart = 0 := by
          rw [List.countP_eq_zero]
          intro e he
          have := hrs e he
          cases e <;> simp_all [Event.isFlowStart, Event.isRegistrationStep]
        have hregNone : w.handler.ClientID ≠ "" → reg = [] := by
          intro hid
          have := hrid hid
          rw [this] at hrt
          simpa [Result.world] using hrt
        cases hr : p.registerIfNeeded env w0 with
        | fatal msg w1 =>
          rw [hr] at hrt hrfs
          simp only [Result.world] at hrt hrfs
          refine ⟨reg ++ [.startCallbackServer p.cfg.AuthServerPort], ?_, ?_, ?_, ?_, ?_, ?_⟩
          · simp [Result.world, hrt, ht0]
          · intro e he
            rcases List.mem_append.1 he with h | h
            · exact hregSetup e h
            · simp at h; subst h; rfl
          · intro hid e he
            simp [hregNone hid] at he; subst he; rfl
          · simp [Result.value]
          · intro hid
            have := hrid hid
            rw [hr] at this
            cases this
          · simpa [Result.world] using hrfs
        | ok u w1 =>
          rw [hr] at hrt hrfs
          simp only [Result.world] at hrt hrfs
          have hfs1 : w.handler.ClientID ≠ "" → w1.fs = w.fs := by
            intro hid
            have := hrid hid
            rw [hr] at this
            cases this
            exact hf0
          simp only []
          cases env.authorizationURL state (env.GenerateCodeChallenge codeVerifier)
              (w1.emit (.GetAuthorizationURL state (env.GenerateCodeChallenge codeVerifier))) with
          | error e =>
            refine ⟨.GetAuthorizationURL state (env.GenerateCodeChallenge codeVerifier) ::
              (reg ++ [.startCallbackServer p.cfg.AuthServerPort]), ?_, ?_, ?_, ?_, ?_, ?_⟩
            · simp [Result.world, World.emit, hrt, ht0]
            · intro e he
              simp only [List.mem_cons, List.mem_append, List.mem_singleton] at he
              rcases he with h | h | h
              · subst h; rfl
              · exact hregSetup e h
              · simp at h; subst h; rfl
            · intro hid e he
              simp only [hregNone hid, List.nil_append, List.mem_cons, List.mem_singleton] at he
              rcases he with h | h | h
              · subst h; rfl
              · subst h; rfl
              · cases h
            · simp [Result.value]
            · intro hid; simpa [Result.world, World.emit] using hfs1 hid
            · simpa [Result.world, World.emit] using hrfs
          | ok authURL =>
            refine ⟨.openBrowser authURL ::
              .GetAuthorizationURL state (env.GenerateCodeChallenge codeVerifier) ::
              (reg ++ [.startCallbackServer p.cfg.AuthServerPort]), ?_, ?_, ?_, ?_, ?_, ?_⟩
            · simp [Result.world, World.emit, hrt, ht0]
            · intro e he
              simp only [List.mem_cons, List.mem_append, List.mem_singleton] at he
              rcases he with h | h | h | h
              · subst h; rfl
              · subst h; rfl
              · exact hregSetup e h
              · simp at h; subst h; rfl
            · intro hid e he
              simp only [hregNone hid, List.nil_append, List.mem_cons, List.mem_singleton] at he
              rcases he with h | h | h | h
              · subst h; rfl
              · subst h; rfl
              · subst h; rfl
              · cases h
            · intro _
              simp [List.countP_cons, List.countP_append, hregFlow, Event.isFlowStart]
            · intro hid; simpa [Result.world, World.emit] using hfs1 hid
            · simpa [Result.world, World.emit] using hrfs

/-- A state that does not match ends the flow where it stands. -/
theorem Proxy.finishFlow_state_mismatch (p : Proxy) (env : Env) (codeVerifier state : String)
    (w : World) (h : (env.callback w).get "state" ≠ state) :
    p.finishFlow env codeVerifier state w = .fatal "State mismatch" w := by
  simp [Proxy.finishFlow, h]

/-- A missing or empty code ends the flow where it stands. -/
theorem Proxy.finishFlow_no_code (p : Proxy) (env : Env) (codeVerifier state : String)
    (w : World) (hs : (env.callback w).get "state" = state)
    (hc : (env.callback w).get "code" = "") :
    p.finishFlow env codeVerifier state w = .fatal "No authorization code received" w := by
  simp [Proxy.finishFlow, hs, hc]

/-- With a matching state and a code, the exchange is called once, with the
    callback's code, the generated state and the verifier; a failure of the
    exchange leaves the file system as it was. -/
theorem Proxy.finishFlow_exchange (p : Proxy) (env : Env) (codeVerifier state : String)
    (w : World) (hs : (env.callback w).get "state" = state)
    (hc : (env.callback w).get "code" ≠ "") :
    ∃ added, (p.finishFlow env codeVerifier state w).world.trace =
        added ++ .ProcessAuthorizationResponse ((env.callback w).get "code") state codeVerifier ::
          w.trace ∧
      (∀ e ∈ added, e = .closeCallbackServer ∨ ∃ token, e = .SaveToken token) ∧
      ((p.finishFlow env codeVerifier state w).value = none →
        (p.finishFlow env codeVerifier state w).world.fs = w.fs) := by
  simp only [Proxy.finishFlow, hs, hc, ne_eq, not_true_eq_false, if_false,
    ProcessAuthorizationResponse]
  cases env.exchange ((env.callback w).get "code") state codeVerifier
      (w.emit (.ProcessAuthorizationResponse ((env.callback w).get "code") state codeVerifier)) with
  | error e => exact ⟨[], by simp [Result.world, World.emit]⟩
  | ok token =>
    simp only [World.emit]
    cases hsave : w.handler.TokenStore.SaveToken env.json w.fs (some token) with
    | mk e fs' =>
      cases e with
      | none =>
        exact ⟨[.closeCallbackServer, .SaveToken token], by
          simp [Result.world, Result.value, World.emit, hsave]⟩
      | some e =>
        have := Storage.SaveToken_error _ _ _ _ _ _ hsave
        exact ⟨[.SaveToken token], by simp [Result.world, Result.value, hsave, this]⟩

/-- What the part of the flow after the callback leaves behind, in every
    case. -/
theorem Proxy.finishFlow_spec (p : Proxy) (env : Env) (codeVerifier state : String) (w : World) :
    ∃ added, (p.finishFlow env codeVerifier state w).world.trace = added ++ w.trace ∧
      (∀ e ∈ added, e.isExchangeStep = true) ∧
      ((p.finishFlow env codeVerifier state w).value = none →
        (p.finishFlow env codeVerifier state w).world.fs = w.fs) := by
  by_cases hs : (env.callback w).get "state" = state
  · by_cases hc : (env.callback w).get "code" = ""
    · exact ⟨[], by simp [p.finishFlow_no_code env codeVerifier state w hs hc, Result.world]⟩
    · obtain ⟨added, ht, hadd, hfs⟩ := p.finishFlow_exchange env codeVerifier state w hs hc
      refine ⟨added ++ [.ProcessAuthorizationResponse ((env.callback w).get "code") state
        codeVerifier], by simp [ht], ?_, hfs⟩
      intro e he
      rcases List.mem_append.1 he with h | h
      · rcases hadd e h with h | ⟨token, h⟩ <;> subst h <;> rfl
      · simp at h; subst h; rfl
  · exact ⟨[], by simp [p.finishFlow_state_mismatch env codeVerifier state w hs, Result.world]⟩

/-- What `maybeAuthorize` leaves behind, in every case: it makes no attempt of
    a remote operation; a flow that returns was started exactly once; with a
    client id in the handler it makes no registration call; and a flow that
    ends the process has written at most the registration it obtained. -/
theorem Proxy.maybeAuthorize_spec (p : Proxy) (env : Env) (err : Error) (w : World) :
    ∃ added, (p.maybeAuthorize env err w).world.trace = added ++ w.trace ∧
      (∀ e ∈ added, e.isRemoteOp = false) ∧
      (IsOAuthAuthorizationRequiredError err = true → (p.maybeAuthorize env err w).value ≠ none →
        added.countP Event.isFlowStart = 1) ∧
      (w.handler.ClientID ≠ "" → ∀ e ∈ added, e.isRegistrationStep = false) ∧
      ((p.maybeAuthorize env err w).value = none →
        (w.handler.ClientID ≠ "" → (p.maybeAuthorize env err w).world.fs = w.fs) ∧
        ((p.maybeAuthorize env err w).world.fs = w.fs ∨
          w.handler.ClientID = "" ∧
            ∃ info, p.store.SaveClientInfo env.json w.fs (some info) =
              (none, (p.maybeAuthorize env err w).world.fs))) := by
  cases hauth : IsOAuthAuthorizationRequiredError err with
  | false =>
    exact ⟨[], by simp [p.maybeAuthorize_other env err w hauth, Result.world, Result.value]⟩
  | true =>
    rw [p.maybeAuthorize_auth env err w hauth]
    obtain ⟨pre, hpt, hps, hpr, hpc, hpf, hpfs⟩ := p.beginFlow_spec env w
    have hpreOp : ∀ e ∈ pre, e.isRemoteOp = false := by
      intro e he
      have := hps e he
      cases e <;> simp_all [Event.isRemoteOp, Event.isSetupStep]
    cases hb : p.beginFlow env w with
    | fatal msg w1 =>
      rw [hb] at hpt hpf hpfs
      simp only [Result.world] at hpt hpf hpfs
      exact ⟨pre, by simp [Result.world, hpt], hpreOp, by simp [Result.value], hpr,
        fun _ => ⟨hpf, hpfs⟩⟩
    | ok vs w1 =>
      obtain ⟨codeVerifier, state⟩ := vs
      rw [hb] at hpt hpf hpfs hpc
      simp only [Result.world] at hpt hpf hpfs
      simp only [Result.value, ne_eq, reduceCtorEq, not_false_eq_true, forall_const] at hpc
      obtain ⟨post, hqt, hqs, hqf⟩ := p.finishFlow_spec env codeVerifier state w1
      have hpostFlow : post.countP Event.isFlowStart = 0 := by
        rw [List.countP_eq_zero]
        intro e he
        have := hqs e he
        cases e <;> simp_all [Event.isFlowStart, Event.isExchangeStep]
      refine ⟨post ++ pre, by simp [hqt, hpt], ?_, ?_, ?_, ?_⟩
      · intro e he
        rcases List.mem_append.1 he with h | h
        · have := hqs e h
          cases e <;> simp_all [Event.isRemoteOp, Event.isExchangeStep]
        · exact hpreOp e h
      · intro _ _
        simp [List.countP_append, hpostFlow, hpc]
      · intro hid e he
        rcases List.mem_append.1 he with h | h
        · have := hqs e h
          cases e <;> simp_all [Event.isRegistrationStep, Event.isExchangeStep]
        · exact hpr hid e h
      · intro hnone
        have hfs := hqf hnone
        simp only [] at hfs ⊢
        rw [hfs]
        exact ⟨hpf, hpfs⟩

/-! ## The callback: state and code -/

theorem Params.get_eq_iff (params : Params) (key value : String) (h : value ≠ "") :
    params.get key = value ↔ params.lookup key = some value := by
  unfold Params.get
  cases params.lookup key with
  | none => simp [Ne.symm h]
  | some x => simp

theorem Params.get_ne_empty_iff (params : Params) (key : String) :
    params.get key ≠ "" ↔ ∃ value, params.lookup key = some value ∧ value ≠ "" := by
  unfold Params.get
  cases params.lookup key with
  | none => simp
  | some x => simp

theorem World.exchanges_of_trace (w w' : World) (added : List Event)
    (h : w'.trace = added ++ w.trace)
    (hadd : ∀ e ∈ added, ∀ code state codeVerifier,
      e ≠ .ProcessAuthorizationResponse code state codeVerifier) :
    w'.exchanges = w.exchanges := by
  unfold World.exchanges
  rw [h, List.filterMap_append]
  have : added.filterMap (fun e =>
      match e with
      | .ProcessAuthorizationResponse code state codeVerifier => some (code, state, codeVerifier)
      | _ => none) = [] := by
    rw [List.filterMap_eq_nil_iff]
    intro e he
    have := hadd e he
    cases e with
    | ProcessAuthorizationResponse code state codeVerifier =>
      exact absurd rfl (this code state codeVerifier)
    | _ => rfl
  rw [this, List.nil_append]

theorem World.tokenSaves_of_trace (w w' : World) (added : List Event)
    (h : w'.trace = added ++ w.trace)
    (hadd : ∀ e ∈ added, ∀ token, e ≠ .SaveToken token) :
    w'.tokenSaves = w.tokenSaves := by
  unfold World.tokenSaves
  rw [h, List.countP_append]
  have : added.countP (fun e => match e with
      | .SaveToken _ => true
      | _ => false) = 0 := by
    rw [List.countP_eq_zero]
    intro e he
    have := hadd e he
    cases e with
    | SaveToken token => exact absurd rfl (this token)
    | _ => simp
  rw [this, Nat.zero_add]

/-- The part of the flow before the callback makes no exchange and saves no
    token. -/
theorem Proxy.beginFlow_no_exchange (p : Proxy) (env : Env) (w : World) :
    (p.beginFlow env w).world.exchanges = w.exchanges ∧
    (p.beginFlow env w).world.tokenSaves = w.tokenSaves := by
  obtain ⟨added, ht, hs, _⟩ := p.beginFlow_spec env w
  constructor
  · apply World.exchanges_of_trace _ _ added ht
    intro e he code state codeVerifier heq
    have := hs e he
    subst heq
    simp [Event.isSetupStep] at this
  · apply World.tokenSaves_of_trace _ _ added ht
    intro e he token heq
    have := hs e he
    subst heq
    simp [Event.isSetupStep] at this

/-- C2: in a flow that reached the wait for the callback (world `w1`, with
    the generated `state` and `codeVerifier`; the generated state is not the
    empty string), `ProcessAuthorizationResponse` is invoked if and only if
    the callback carries a `state` parameter equal to the generated state and
    a `code` parameter that is present and non-empty.  When it is invoked it
    is invoked once, with the callback's code, the generated state and the
    generated verifier.  Otherwise the process ends in exactly the world the
    callback arrived in: no exchange was made and no token was saved. -/
theorem exchange_iff_state_and_code (p : Proxy) (env : Env) (err : Error) (w w1 : World)
    (codeVerifier state : String)
    (hauth : IsOAuthAuthorizationRequiredError err = true)
    (hbegin : p.beginFlow env w = .ok (codeVerifier, state) w1)
    (hstate : state ≠ "") :
    ((p.maybeAuthorize env err w).world.exchanges ≠ w.exchanges ↔
      ((env.callback w1).lookup "state" = some state ∧
        ∃ code, (env.callback w1).lookup "code" = some code ∧ code ≠ "")) ∧
    (∀ code, (env.callback w1).lookup "state" = some state →
      (env.callback w1).lookup "code" = some code → code ≠ "" →
      (p.maybeAuthorize env err w).world.exchanges = (code, state, codeVerifier) :: w.exchanges) ∧
    (¬ ((env.callback w1).lookup "state" = some state ∧
        ∃ code, (env.callback w1).lookup "code" = some code ∧ code ≠ "") →
      (p.maybeAuthorize env err w).value = none ∧
      (p.maybeAuthorize env err w).world = w1 ∧
      (p.maybeAuthorize env err w).world.exchanges = w.exchanges ∧
      (p.maybeAuthorize env err w).world.tokenSaves = w.tokenSaves) := by
  have hm : p.maybeAuthorize env err w = p.finishFlow env codeVerifier state w1 := by
    rw [p.maybeAuthorize_auth env err w hauth, hbegin]
  have hw1 := p.beginFlow_no_exchange env w
  rw [hbegin] at hw1
  simp only [Result.world] at hw1
  have hyes : ∀ code, (env.callback w1).lookup "state" = some state →
      (env.callback w1).lookup "code" = some code → code ≠ "" →
      (p.maybeAuthorize env err w).world.exchanges = (code, state, codeVerifier) :: w.exchanges := by
    intro code hs hc hne
    have hs' : (env.callback w1).get "state" = state :=
      (Params.get_eq_iff _ _ _ hstate).2 hs
    have hc' : (env.callback w1).get "code" = code := by simp [Params.get, hc]
    have hc'' : (env.callback w1).get "code" ≠ "" := by rw [hc']; exact hne
    obtain ⟨added, ht, hadd, _⟩ := p.finishFlow_exchange env codeVerifier state w1 hs' hc''
    rw [hm, ← hw1.1, ← hc']
    have hcons : (p.finishFlow env codeVerifier state w1).world.exchanges =
        (w1.emit (.ProcessAuthorizationResponse ((env.callback w1).get "code") state
          codeVerifier)).exchanges := by
      apply World.exchanges_of_trace _ _ added
      · simpa [World.emit] using ht
      · intro e he code state codeVerifier heq
        rcases hadd e he with h | ⟨token, h⟩ <;> subst h <;> cases heq
    rw [hcons]
    simp [World.exchanges, World.emit]
  have hno : ¬ ((env.callback w1).lookup "state" = some state ∧
        ∃ code, (env.callback w1).lookup "code" = some code ∧ code ≠ "") →
      (p.maybeAuthorize env err w).value = none ∧
      (p.maybeAuthorize env err w).world = w1 ∧
      (p.maybeAuthorize env err w).world.exchanges = w.exchanges ∧
      (p.maybeAuthorize env err w).world.tokenSaves = w.tokenSaves := by
    intro hcond
    by_cases hs : (env.callback w1).get "state" = state
    · have hc : (env.callback w1).get "code" = "" := by
        by_contra hc
        exact hcond ⟨(Params.get_eq_iff _ _ _ hstate).1 hs,
          (Params.get_ne_empty_iff _ _).1 hc⟩
      rw [hm, p.finishFlow_no_code env codeVerifier state w1 hs hc]
      exact ⟨rfl, rfl, hw1.1, hw1.2⟩
    · rw [hm, p.finishFlow_state_mismatch env codeVerifier state w1 hs]
      exact ⟨rfl, rfl, hw1.1, hw1.2⟩
  refine ⟨⟨fun hne => ?_, fun hcond => ?_⟩, hyes, hno⟩
  · by_contra hcond
    exact hne (hno hcond).2.2.1
  · obtain ⟨hs, code, hc, hne⟩ := hcond
    rw [hyes code hs hc hne]
    intro h
    have := congrArg List.length h
    simp at this

/-- Witness for C2: a flow for `sampleProxy` whose callback carries the
    generated state `s2` and the code `c0de` makes exactly one exchange, with
    that code, that state and the verifier. -/
theorem exchange_iff_state_and_code_witness :
    ((sampleProxy "").maybeAuthorize
        (sampleEnv .OAuthAuthorizationRequired [("state", "s2"), ("code", "c0de")])
        .OAuthAuthorizationRequired (sampleWorld "" fsRootOnly)).world.exchanges =
      [("c0de", "s2", "verifier")] :=
  (exchange_iff_state_and_code (sampleProxy "")
    (sampleEnv .OAuthAuthorizationRequired [("state", "s2"), ("code", "c0de")])
    .OAuthAuthorizationRequired (sampleWorld "" fsRootOnly)
    ((sampleProxy "").beginFlow
      (sampleEnv .OAuthAuthorizationRequired [("state", "s2"), ("code", "c0de")])
      (sampleWorld "" fsRootOnly)).world
    "verifier" "s2" rfl rfl (by decide)).2.1 "c0de" rfl rfl (by decide)

/-! ## The four wrapped call sites -/

theorem World.attempts_emit (w : World) (e op : Event) :
    (w.emit e).attempts op = w.attempts op + if e = op then 1 else 0 := by
  by_cases h : e = op <;> simp [World.attempts, World.emit, Event.isAttemptOf, h]

theorem World.flows_emit_remote (w : World) (e : Event) (h : e.isRemoteOp = true) :
    (w.emit e).flows = w.flows := by
  cases e <;> simp_all [World.flows, World.emit, Event.isFlowStart, Event.isRemoteOp]

/-- A flow that returns made no attempt of any remote operation and was
    started exactly once. -/
theorem Proxy.maybeAuthorize_counts (p : Proxy) (env : Env) (err : Error) (w w' : World)
    (hauth : IsOAuthAuthorizationRequiredError err = true)
    (hok : p.maybeAuthorize env err w = .ok () w') :
    (∀ op, op.isRemoteOp = true → w'.attempts op = w.attempts op) ∧ w'.flows = w.flows + 1 := by
  obtain ⟨added, ht, hops, hflow, _⟩ := p.maybeAuthorize_spec env err w
  rw [hok] at ht hflow
  simp only [Result.world] at ht
  constructor
  · intro op hop
    unfold World.attempts
    rw [ht, List.countP_append]
    have : added.countP op.isAttemptOf = 0 := by
      rw [List.countP_eq_zero]
      intro e he
      have hne := hops e he
      simp only [Event.isAttemptOf, decide_eq_true_eq]
      intro heq
      rw [heq, hop] at hne
      cases hne
    rw [this, Nat.zero_add]
  · unfold World.flows
    rw [ht, List.countP_append, hflow hauth (by simp [Result.value])]
    exact Nat.add_comm _ _

/-- C3: at each of the four wrapped call sites (`Start`, `Initialize`,
    `ListTools`, and `CallTool` in the tool handler), when the first attempt
    fails with an authorization-required error and the flow returns, the call
    site yields exactly the outcome of a second attempt made after the flow;
    the operation has then been attempted twice in total and the flow has run
    once. -/
theorem retry_once_after_authorization (p : Proxy) (env : Env) (w : World) :
    (∀ err w', env.Start w = some err → IsOAuthAuthorizationRequiredError err = true →
      p.maybeAuthorize env err (w.emit .Start) = .ok () w' →
      p.startSite env w = .ok (env.Start w') (w'.emit .Start) ∧
      (p.startSite env w).world.attempts .Start = w.attempts .Start + 2 ∧
      (p.startSite env w).world.flows = w.flows + 1) ∧
    (∀ err w', env.Initialize w = .error err → IsOAuthAuthorizationRequiredError err = true →
      p.maybeAuthorize env err (w.emit .Initialize) = .ok () w' →
      p.initializeSite env w = .ok (env.Initialize w') (w'.emit .Initialize) ∧
      (p.initializeSite env w).world.attempts .Initialize = w.attempts .Initialize + 2 ∧
      (p.initializeSite env w).world.flows = w.flows + 1) ∧
    (∀ err w', env.ListTools w = .error err → IsOAuthAuthorizationRequiredError err = true →
      p.maybeAuthorize env err (w.emit .ListTools) = .ok () w' →
      p.listToolsSite env w = .ok (env.ListTools w') (w'.emit .ListTools) ∧
      (p.listToolsSite env w).world.attempts .ListTools = w.attempts .ListTools + 2 ∧
      (p.listToolsSite env w).world.flows = w.flows + 1) ∧
    (∀ request err w', env.CallTool request w = .error err →
      IsOAuthAuthorizationRequiredError err = true →
      p.maybeAuthorize env err (w.emit (.CallTool request)) = .ok () w' →
      p.toolHandler env request w = .ok (env.CallTool request w') (w'.emit (.CallTool request)) ∧
      (p.toolHandler env request w).world.attempts (.CallTool request) =
        w.attempts (.CallTool request) + 2 ∧
      (p.toolHandler env request w).world.flows = w.flows + 1) := by
  have key : ∀ (op : Event) (err : Error) (w' : World), op.isRemoteOp = true →
      IsOAuthAuthorizationRequiredError err = true →
      p.maybeAuthorize env err (w.emit op) = .ok () w' →
      (w'.emit op).attempts op = w.attempts op + 2 ∧ (w'.emit op).flows = w.flows + 1 := by
    intro op err w' hop hauth hok
    obtain ⟨hatt, hfl⟩ := p.maybeAuthorize_counts env err (w.emit op) w' hauth hok
    rw [World.attempts_emit, hatt op hop, World.attempts_emit, World.flows_emit_remote _ _ hop,
      hfl, World.flows_emit_remote _ _ hop]
    simp
  refine ⟨fun err w' h1 hauth hok => ?_, fun err w' h1 hauth hok => ?_,
    fun err w' h1 hauth hok => ?_, fun request err w' h1 hauth hok => ?_⟩
  · have hsite : p.startSite env w = .ok (env.Start w') (w'.emit .Start) := by
      simp [Proxy.startSite, h1, hok]
    rw [hsite]
    exact ⟨rfl, key .Start err w' rfl hauth hok⟩
  · have hsite : p.initializeSite env w = .ok (env.Initialize w') (w'.emit .Initialize) := by
      simp [Proxy.initializeSite, h1, hok]
    rw [hsite]
    exact ⟨rfl, key .Initialize err w' rfl hauth hok⟩
  · have hsite : p.listToolsSite env w = .ok (env.ListTools w') (w'.emit .ListTools) := by
      simp [Proxy.listToolsSite, h1, hok]
    rw [hsite]
    exact ⟨rfl, key .ListTools err w' rfl hauth hok⟩
  · have hsite : p.toolHandler env request w =
        .ok (env.CallTool request w') (w'.emit (.CallTool request)) := by
      simp [Proxy.toolHandler, h1, hok]
    rw [hsite]
    exact ⟨rfl, key (.CallTool request) err w' rfl hauth hok⟩

/-- Witness for C3: the tool handler of `sampleProxy`, whose first `CallTool`
    fails with an authorization-required error and whose flow succeeds, calls
    the tool twice, runs one flow and returns the second result. -/
theorem retry_once_after_authorization_witness :
    ((sampleProxy "abc").toolHandler
        (sampleEnv .OAuthAuthorizationRequired [("state", "s2"), ("code", "c0de")]) "echo"
        (sampleWorld "abc" fsRootOnly)).value = some (.ok "result of echo") ∧
    ((sampleProxy "abc").toolHandler
        (sampleEnv .OAuthAuthorizationRequired [("state", "s2"), ("code", "c0de")]) "echo"
        (sampleWorld "abc" fsRootOnly)).world.attempts (.CallTool "echo") = 2 ∧
    ((sampleProxy "abc").toolHandler
        (sampleEnv .OAuthAuthorizationRequired [("state", "s2"), ("code", "c0de")]) "echo"
        (sampleWorld "abc" fsRootOnly)).world.flows = 1 :=
  have h := (retry_once_after_authorization (sampleProxy "abc")
    (sampleEnv .OAuthAuthorizationRequired [("state", "s2"), ("code", "c0de")])
    (sampleWorld "abc" fsRootOnly)).2.2.2 "echo" .OAuthAuthorizationRequired
    ((sampleProxy "abc").maybeAuthorize
      (sampleEnv .OAuthAuthorizationRequired [("state", "s2"), ("code", "c0de")])
      .OAuthAuthorizationRequired ((sampleWorld "abc" fsRootOnly).emit (.CallTool "echo"))).world
    rfl rfl rfl
  ⟨by rw [h.1]; decide, h.2.1, h.2.2⟩

/-- C4, counterexample: `Start` fails first with an error that is not
    authorization-required (connection refused) and would succeed on a second
    attempt.  The call site runs no flow, yet it attempts `Start` twice and
    yields the second outcome (success) instead of the first error; the same
    holds for the tool handler. -/
theorem other_error_is_retried :
    IsOAuthAuthorizationRequiredError (.other "connection refused") = false ∧
    (sampleEnv (.other "connection refused") []).Start (sampleWorld "abc" fsRootOnly) =
      some (.other "connection refused") ∧
    ((sampleProxy "abc").startSite (sampleEnv (.other "connection refused") [])
      (sampleWorld "abc" fsRootOnly)).world.attempts .Start = 2 ∧
    ((sampleProxy "abc").startSite (sampleEnv (.other "connection refused") [])
      (sampleWorld "abc" fsRootOnly)).value = some none ∧
    ((sampleProxy "abc").startSite (sampleEnv (.other "connection refused") [])
      (sampleWorld "abc" fsRootOnly)).world.flows = 0 ∧
    ((sampleProxy "abc").toolHandler (sampleEnv (.other "connection refused") []) "echo"
      (sampleWorld "abc" fsRootOnly)).world.attempts (.CallTool "echo") = 2 ∧
    ((sampleProxy "abc").toolHandler (sampleEnv (.other "connection refused") []) "echo"
      (sampleWorld "abc" fsRootOnly)).value = some (.ok "result of echo") := by
  decide

/-- C4, amended: at each of the four wrapped call sites, when the first
    attempt fails with an error that is not authorization-required, the flow
    is not run, the operation is attempted a second time right away, and the
    call site yields the outcome of that second attempt. -/
theorem other_error_retried_without_flow (p : Proxy) (env : Env) (w : World) :
    (∀ err, env.Start w = some err → IsOAuthAuthorizationRequiredError err = false →
      p.startSite env w = .ok (env.Start (w.emit .Start)) ((w.emit .Start).emit .Start) ∧
      (p.startSite env w).world.attempts .Start = w.attempts .Start + 2 ∧
      (p.startSite env w).world.flows = w.flows) ∧
    (∀ err, env.Initialize w = .error err → IsOAuthAuthorizationRequiredError err = false →
      p.initializeSite env w =
        .ok (env.Initialize (w.emit .Initialize)) ((w.emit .Initialize).emit .Initialize) ∧
      (p.initializeSite env w).world.attempts .Initialize = w.attempts .Initialize + 2 ∧
      (p.initializeSite env w).world.flows = w.flows) ∧
    (∀ err, env.ListTools w = .error err → IsOAuthAuthorizationRequiredError err = false →
      p.listToolsSite env w =
        .ok (env.ListTools (w.emit .ListTools)) ((w.emit .ListTools).emit .ListTools) ∧
      (p.listToolsSite env w).world.attempts .ListTools = w.attempts .ListTools + 2 ∧
      (p.listToolsSite env w).world.flows = w.flows) ∧
    (∀ request err, env.CallTool request w = .error err →
      IsOAuthAuthorizationRequiredError err = false →
      p.toolHandler env request w =
        .ok (env.CallTool request (w.emit (.CallTool request)))
          ((w.emit (.CallTool request)).emit (.CallTool request)) ∧
      (p.toolHandler env request w).world.attempts (.CallTool request) =
        w.attempts (.CallTool request) + 2 ∧
      (p.toolHandler env request w).world.flows = w.flows) := by
  have key : ∀ (op : Event), op.isRemoteOp = true →
      ((w.emit op).emit op).attempts op = w.attempts op + 2 ∧
      ((w.emit op).emit op).flows = w.flows := by
    intro op hop
    rw [World.attempts_emit, World.attempts_emit, World.flows_emit_remote _ _ hop,
      World.flows_emit_remote _ _ hop]
    simp
  refine ⟨fun err h1 hauth => ?_, fun err h1 hauth => ?_, fun err h1 hauth => ?_,
    fun request err h1 hauth => ?_⟩
  · have hsite : p.startSite env w =
        .ok (env.Start (w.emit .Start)) ((w.emit .Start).emit .Start) := by
      simp [Proxy.startSite, h1, p.maybeAuthorize_other env err _ hauth]
    rw [hsite]
    exact ⟨rfl, key .Start rfl⟩
  · have hsite : p.initializeSite env w =
        .ok (env.Initialize (w.emit .Initialize)) ((w.emit .Initialize).emit .Initialize) := by
      simp [Proxy.initializeSite, h1, p.maybeAuthorize_other env err _ hauth]
    rw [hsite]
    exact ⟨rfl, key .Initialize rfl⟩
  · have hsite : p.listToolsSite env w =
        .ok (env.ListTools (w.emit .ListTools)) ((w.emit .ListTools).emit .ListTools) := by
      simp [Proxy.listToolsSite, h1, p.maybeAuthorize_other env err _ hauth]
    rw [hsite]
    exact ⟨rfl, key .ListTools rfl⟩
  · have hsite : p.toolHandler env request w =
        .ok (env.CallTool request (w.emit (.CallTool request)))
          ((w.emit (.CallTool request)).emit (.CallTool request)) := by
      simp [Proxy.toolHandler, h1, p.maybeAuthorize_other env err _ hauth]
    rw [hsite]
    exact ⟨rfl, key (.CallTool request) rfl⟩

/-- Witness for the amended C4: with `Initialize` refused on the first
    attempt, the call site attempts it twice, runs no flow and yields the
    second result. -/
theorem other_error_retried_without_flow_witness :
    ((sampleProxy "abc").initializeSite (sampleEnv (.other "connection refused") [])
      (sampleWorld "abc" fsRootOnly)).value =
      some (.ok { ServerInfoName := "remote", ServerInfoVersion := "1.0", Instructions := "" }) ∧
    ((sampleProxy "abc").initializeSite (sampleEnv (.other "connection refused") [])
      (sampleWorld "abc" fsRootOnly)).world.attempts .Initialize = 2 ∧
    ((sampleProxy "abc").initializeSite (sampleEnv (.other "connection refused") [])
      (sampleWorld "abc" fsRootOnly)).world.flows = 0 :=
  have h := (other_error_retried_without_flow (sampleProxy "abc")
    (sampleEnv (.other "connection refused") []) (sampleWorld "abc" fsRootOnly)).2.1
    (.other "connection refused") rfl rfl
  ⟨by rw [h.1]; decide, h.2.1, h.2.2⟩

/-! ## A flow that fails -/

/-- C7, counterexample: the handler has no client id, registration succeeds
    and returns `abc`/`xyz`, the flow generates the state `s2` and the
    callback arrives with `state=s1`.  The flow ends with the state-mismatch
    failure, but the store is not what it was: the file did not exist before
    and holds the registration afterwards. -/
theorem failed_flow_keeps_registration :
    ((sampleProxy "").maybeAuthorize
        (sampleEnv .OAuthAuthorizationRequired [("state", "s1"), ("code", "c0de")])
        .OAuthAuthorizationRequired (sampleWorld "" fsRootOnly)).failure =
      some "State mismatch" ∧
    (sampleWorld "" fsRootOnly).fs sampleStorage.path = none ∧
    sampleStorage.persisted sampleJson (sampleWorld "" fsRootOnly).fs =
      .ok { ClientInfo := none, Token := none } ∧
    ((sampleProxy "").maybeAuthorize
        (sampleEnv .OAuthAuthorizationRequired [("state", "s1"), ("code", "c0de")])
        .OAuthAuthorizationRequired (sampleWorld "" fsRootOnly)).world.fs sampleStorage.path =
      some (.file (sampleRender { ClientInfo := some sampleClient, Token := none }) 0o600) ∧
    sampleStorage.persisted sampleJson
        ((sampleProxy "").maybeAuthorize
          (sampleEnv .OAuthAuthorizationRequired [("state", "s1"), ("code", "c0de")])
          .OAuthAuthorizationRequired (sampleWorld "" fsRootOnly)).world.fs =
      .ok { ClientInfo := some sampleClient, Token := none } := by
  decide

/-- The registration step when the handler has no client id, registration
    returns `info` and saving it succeeds: it returns, the file system is the
    result of that `SaveClientInfo`, and the history gained the two calls. -/
theorem Proxy.registerIfNeeded_saved (p : Proxy) (env : Env) (w : World) (info : ClientInfo)
    (fs1 : FS) (hid : w.handler.ClientID = "")
    (hreg : env.register "go-mcp-proxy" (w.emit (.RegisterClient "go-mcp-proxy")) = .ok info)
    (hsave : p.store.SaveClientInfo env.json w.fs (some info) = (none, fs1)) :
    ∃ w2, p.registerIfNeeded env w = .ok () w2 ∧ w2.fs = fs1 ∧
      w2.trace = .SaveClientInfo info :: .RegisterClient "go-mcp-proxy" :: w.trace := by
  simp only [World.emit] at hreg
  simp only [Proxy.registerIfNeeded, hid, if_true, RegisterClient, World.emit, hreg, hsave]
  exact ⟨_, rfl, rfl, rfl⟩

/-- The registration step when registration itself fails. -/
theorem Proxy.registerIfNeeded_register_error (p : Proxy) (env : Env) (w : World) (e : Error)
    (hid : w.handler.ClientID = "")
    (hreg : env.register "go-mcp-proxy" (w.emit (.RegisterClient "go-mcp-proxy")) = .error e) :
    p.registerIfNeeded env w =
      .fatal "Failed to register client" (w.emit (.RegisterClient "go-mcp-proxy")) := by
  simp only [World.emit] at hreg
  simp only [Proxy.registerIfNeeded, hid, if_true, RegisterClient, World.emit, hreg]

/-- The registration step when saving the registration fails. -/
theorem Proxy.registerIfNeeded_save_error (p : Proxy) (env : Env) (w : World) (info : ClientInfo)
    (e : Error) (fs1 : FS) (hid : w.handler.ClientID = "")
    (hreg : env.register "go-mcp-proxy" (w.emit (.RegisterClient "go-mcp-proxy")) = .ok info)
    (hsave : p.store.SaveClientInfo env.json w.fs (some info) = (some e, fs1)) :
    ∃ w2, p.registerIfNeeded env w = .fatal "Failed to save client info" w2 ∧ w2.fs = w.fs := by
  have hfs := Storage.SaveClientInfo_error _ _ _ _ _ _ hsave
  simp only [World.emit] at hreg
  simp only [Proxy.registerIfNeeded, hid, if_true, RegisterClient, World.emit, hreg, hsave]
  exact ⟨_, rfl, hfs⟩

/-- C7, amended: a flow that ends in failure never leaves a token written.
    When the handler already had a client id, the file system after the flow
    is the one before it.  When the flow had to register a client (no client
    id, callback server started, verifier and state generated), the
    registration `info` that `RegisterClient` returned is saved right away:
    if that `SaveClientInfo` succeeded, then after any later failure
    (authorization-URL error, state mismatch, missing code, exchange error)
    the file system is exactly the result of that one `SaveClientInfo info`,
    and every call made after it in the history is an authorization-URL,
    browser or exchange call; if registration or the save itself failed, the
    file system is unchanged.  In every failing case the file system is
    unchanged or the result of one successful `SaveClientInfo` on the file
    system before the flow.  A callback whose state differs from the
    generated state ends the flow with the state-mismatch failure, in the
    world the callback arrived in. -/
theorem failed_flow_writes_at_most_registration (p : Proxy) (env : Env) (err : Error)
    (w : World) (hfail : (p.maybeAuthorize env err w).value = none) :
    (w.handler.ClientID ≠ "" → (p.maybeAuthorize env err w).world.fs = w.fs) ∧
    (∀ codeVerifier state,
      IsOAuthAuthorizationRequiredError err = true →
      w.callbackRegistered = false →
      w.handler.ClientID = "" →
      env.GenerateCodeVerifier
        ({ w with callbackRegistered := true }.emit (.startCallbackServer p.cfg.AuthServerPort)) =
          .ok codeVerifier →
      env.GenerateState
        ({ w with callbackRegistered := true }.emit (.startCallbackServer p.cfg.AuthServerPort)) =
          .ok state →
      (∀ info fs1,
        env.register "go-mcp-proxy"
          (({ w with callbackRegistered := true }.emit
            (.startCallbackServer p.cfg.AuthServerPort)).emit (.RegisterClient "go-mcp-proxy")) =
            .ok info →
        p.store.SaveClientInfo env.json w.fs (some info) = (none, fs1) →
        (p.maybeAuthorize env err w).world.fs = fs1 ∧
        ∃ later, (p.maybeAuthorize env err w).world.trace =
            later ++ .SaveClientInfo info :: .RegisterClient "go-mcp-proxy" ::
              .startCallbackServer p.cfg.AuthServerPort :: w.trace ∧
          ∀ e ∈ later, e.isExchangeStep = true ∨
            (∃ s c, e = .GetAuthorizationURL s c) ∨ ∃ url, e = .openBrowser url) ∧
      (∀ e, env.register "go-mcp-proxy"
          (({ w with callbackRegistered := true }.emit
            (.startCallbackServer p.cfg.AuthServerPort)).emit (.RegisterClient "go-mcp-proxy")) =
            .error e →
        (p.maybeAuthorize env err w).failure = some "Failed to register client" ∧
        (p.maybeAuthorize env err w).world.fs = w.fs) ∧
      (∀ info e fs1,
        env.register "go-mcp-proxy"
          (({ w with callbackRegistered := true }.emit
            (.startCallbackServer p.cfg.AuthServerPort)).emit (.RegisterClient "go-mcp-proxy")) =
            .ok info →
        p.store.SaveClientInfo env.json w.fs (some info) = (some e, fs1) →
        (p.maybeAuthorize env err w).failure = some "Failed to save client info" ∧
        (p.maybeAuthorize env err w).world.fs = w.fs)) ∧
    ((p.maybeAuthorize env err w).world.fs = w.fs ∨
      w.handler.ClientID = "" ∧
        ∃ info, p.store.SaveClientInfo env.json w.fs (some info) =
          (none, (p.maybeAuthorize env err w).world.fs)) ∧
    (∀ codeVerifier state w1, IsOAuthAuthorizationRequiredError err = true →
      p.beginFlow env w = .ok (codeVerifier, state) w1 →
      (env.callback w1).get "state" ≠ state →
      p.maybeAuthorize env err w = .fatal "State mismatch" w1) := by
  obtain ⟨added, _, _, _, _, hfs⟩ := p.maybeAuthorize_spec env err w
  refine ⟨(hfs hfail).1, ?_, (hfs hfail).2, ?_⟩
  · intro codeVerifier state hauth hcb hid hver hst
    generalize hw0 : ({ w with callbackRegistered := true } : World).emit
      (.startCallbackServer p.cfg.AuthServerPort) = w0 at hver hst ⊢
    have ht0 : w0.trace = .startCallbackServer p.cfg.AuthServerPort :: w.trace := by
      subst hw0; rfl
    have hf0 : w0.fs = w.fs := by subst hw0; rfl
    have hh0 : w0.handler.ClientID = "" := by subst hw0; exact hid
    have hbegin : p.beginFlow env w =
        match p.registerIfNeeded env w0 with
        | .fatal msg w => .fatal msg w
        | .ok _ w =>
          match env.authorizationURL state (env.GenerateCodeChallenge codeVerifier)
              (w.emit (.GetAuthorizationURL state (env.GenerateCodeChallenge codeVerifier))) with
          | .error _ => .fatal "Failed to get authorization URL"
              (w.emit (.GetAuthorizationURL state (env.GenerateCodeChallenge codeVerifier)))
          | .ok authURL => .ok (codeVerifier, state)
              ((w.emit (.GetAuthorizationURL state (env.GenerateCodeChallenge codeVerifier))).emit
                (.openBrowser authURL)) := by
      simp only [Proxy.beginFlow, Proxy.startCallbackServer, hcb, Bool.false_eq_true, if_false,
        hw0, hver, hst]
    have hm := p.maybeAuthorize_auth env err w hauth
    refine ⟨fun info fs1 hreg hsave => ?_, fun e hreg => ?_, fun info e fs1 hreg hsave => ?_⟩
    · rw [← hf0] at hsave
      obtain ⟨w2, hr, hfs2, ht2⟩ := p.registerIfNeeded_saved env w0 info fs1 hh0 hreg hsave
      rw [hr] at hbegin
      simp only [] at hbegin
      cases hurl : env.authorizationURL state (env.GenerateCodeChallenge codeVerifier)
          (w2.emit (.GetAuthorizationURL state (env.GenerateCodeChallenge codeVerifier))) with
      | error e =>
        rw [hurl] at hbegin
        rw [hm, hbegin]
        refine ⟨by simpa [Result.world, World.emit] using hfs2,
          [.GetAuthorizationURL state (env.GenerateCodeChallenge codeVerifier)], ?_, ?_⟩
        · simp [Result.world, World.emit, ht2, ht0]
        · intro e he
          simp only [List.mem_singleton] at he
          subst he
          exact Or.inr (Or.inl ⟨_, _, rfl⟩)
      | ok authURL =>
        rw [hurl] at hbegin
        rw [hm, hbegin] at hfail ⊢
        simp only [] at hfail ⊢
        obtain ⟨post, hqt, hqs, hqf⟩ := p.finishFlow_spec env codeVerifier state
          ((w2.emit (.GetAuthorizationURL state (env.GenerateCodeChallenge codeVerifier))).emit
            (.openBrowser authURL))
        refine ⟨by rw [hqf hfail]; simpa [World.emit] using hfs2,
          post ++ [.openBrowser authURL,
            .GetAuthorizationURL state (env.GenerateCodeChallenge codeVerifier)], ?_, ?_⟩
        · rw [hqt]
          simp [World.emit, ht2, ht0]
        · intro e he
          rcases List.mem_append.1 he with h | h
          · exact Or.inl (hqs e h)
          · simp only [List.mem_cons, List.mem_singleton, List.mem_nil_iff, or_false] at h
            rcases h with h | h
            · subst h; exact Or.inr (Or.inr ⟨_, rfl⟩)
            · subst h; exact Or.inr (Or.inl ⟨_, _, rfl⟩)
    · rw [p.registerIfNeeded_register_error env w0 e hh0 hreg] at hbegin
      rw [hm, hbegin]
      exact ⟨rfl, by simpa [Result.world, World.emit] using hf0⟩
    · rw [← hf0] at hsave
      obtain ⟨w2, hr, hfs2⟩ := p.registerIfNeeded_save_error env w0 info e fs1 hh0 hreg hsave
      rw [hr] at hbegin
      rw [hm, hbegin]
      exact ⟨rfl, by simpa [Result.world, hf0] using hfs2⟩
  · intro codeVerifier state w1 hauth hbegin hne
    rw [p.maybeAuthorize_auth env err w hauth, hbegin]
    exact p.finishFlow_state_mismatch env codeVerifier state w1 hne

/-- Witness for the amended C7: the handler has no client id, registration
    returns `abc`/`xyz` and is saved, and the callback then arrives with the
    wrong state.  The flow fails and the file system is exactly the result of
    that one `SaveClientInfo`. -/
theorem failed_flow_writes_at_most_registration_witness :
    ((sampleProxy "").maybeAuthorize
        (sampleEnv .OAuthAuthorizationRequired [("state", "s1"), ("code", "c0de")])
        .OAuthAuthorizationRequired (sampleWorld "" fsRootOnly)).value = none ∧
    ((sampleProxy "").maybeAuthorize
        (sampleEnv .OAuthAuthorizationRequired [("state", "s1"), ("code", "c0de")])
        .OAuthAuthorizationRequired (sampleWorld "" fsRootOnly)).world.fs =
      (sampleStorage.SaveClientInfo sampleJson fsRootOnly (some sampleClient)).2 :=
  ⟨by decide,
   (((failed_flow_writes_at_most_registration (sampleProxy "")
     (sampleEnv .OAuthAuthorizationRequired [("state", "s1"), ("code", "c0de")])
     .OAuthAuthorizationRequired (sampleWorld "" fsRootOnly) (by decide)).2.1
       "verifier" "s2" rfl rfl rfl rfl rfl).1 sampleClient
       (sampleStorage.SaveClientInfo sampleJson fsRootOnly (some sampleClient)).2 rfl
       (Prod.ext (by decide) rfl)).1⟩

/-! ## Registration happens at most when no client id is known -/

theorem World.registrations_of_trace (w w' : World) (added : List Event)
    (h : w'.trace = added ++ w.trace)
    (hadd : ∀ e ∈ added, e.isRegistrationStep = false) :
    w'.registrations = w.registrations ∧ w'.clientInfoSaves = w.clientInfoSaves := by
  unfold World.registrations World.clientInfoSaves
  rw [h, List.countP_append, List.countP_append]
  have h1 : added.countP (fun e => match e with
      | .RegisterClient _ => true
      | _ => false) = 0 := by
    rw [List.countP_eq_zero]
    intro e he
    have := hadd e he
    cases e <;> simp_all [Event.isRegistrationStep]
  have h2 : added.countP (fun e => match e with
      | .SaveClientInfo _ => true
      | _ => false) = 0 := by
    rw [List.countP_eq_zero]
    intro e he
    have := hadd e he
    cases e <;> simp_all [Event.isRegistrationStep]
  rw [h1, h2, Nat.zero_add, Nat.zero_add]
  exact ⟨rfl, rfl⟩

/-- What `NewProxy` puts into the OAuth configuration. -/
theorem NewProxy_oauthConfig (env : Env) (cfg : Config) (fs : FS) (p : Proxy)
    (h : NewProxy env cfg fs = .ok p) :
    p.oauthConfig.ClientID = p.cfg.ClientID ∧
    p.oauthConfig.ClientSecret = p.cfg.ClientSecret ∧
    p.oauthConfig.TokenStore = p.store ∧
    (cfg.ClientID ≠ "" → p.cfg = cfg) ∧
    (cfg.ClientID = "" →
      (p.store.GetClientInfo env.json fs = .ok none ∧ p.cfg = cfg) ∨
      ∃ info, p.store.GetClientInfo env.json fs = .ok (some info) ∧
        p.cfg = { cfg with ClientID := info.ID, ClientSecret := info.Secret }) := by
  unfold NewProxy at h
  split at h
  · cases h
  · split at h
    · cases h
    · next store hstore =>
      by_cases hid : cfg.ClientID = ""
      · simp only [hid, if_true] at h
        cases hget : store.GetClientInfo env.json fs with
        | error e => simp [hget] at h
        | ok info =>
          cases info with
          | none =>
            simp only [hget, Except.ok.injEq] at h
            subst h
            simp [hid, hget]
          | some info =>
            simp only [hget, Except.ok.injEq] at h
            subst h
            simp [hid, hget]
      · simp only [hid, if_false, Except.ok.injEq] at h
        subst h
        simp [hid]

/-- C8, counterexample: the store holds a registration whose id is the empty
    string and no client id is configured.  `NewProxy` puts the stored (empty)
    id and the stored secret into the OAuth configuration, and the flow run
    with that configuration registers a client again and saves it. -/
theorem stored_blank_id_registers_again :
    sampleStorage.GetClientInfo sampleJson fsBlankClient = .ok (some sampleBlankClient) ∧
    NewProxy (sampleEnv .OAuthAuthorizationRequired [("state", "s2"), ("code", "c0de")])
        (sampleConfig "") fsBlankClient = .ok (sampleStoredProxy sampleBlankClient) ∧
    (sampleStoredProxy sampleBlankClient).oauthConfig.ClientID = "" ∧
    (sampleStoredProxy sampleBlankClient).oauthConfig.ClientSecret = "s3cret" ∧
    ((sampleStoredProxy sampleBlankClient).maybeAuthorize
        (sampleEnv .OAuthAuthorizationRequired [("state", "s2"), ("code", "c0de")])
        .OAuthAuthorizationRequired sampleBlankWorld).world.registrations = 1 ∧
    ((sampleStoredProxy sampleBlankClient).maybeAuthorize
        (sampleEnv .OAuthAuthorizationRequired [("state", "s2"), ("code", "c0de")])
        .OAuthAuthorizationRequired sampleBlankWorld).world.clientInfoSaves = 1 ∧
    ((sampleStoredProxy sampleBlankClient).maybeAuthorize
        (sampleEnv .OAuthAuthorizationRequired [("state", "s2"), ("code", "c0de")])
        .OAuthAuthorizationRequired sampleBlankWorld).world.trace =
      [.closeCallbackServer, .SaveToken sampleToken,
        .ProcessAuthorizationResponse "c0de" "s2" "verifier",
        .openBrowser "https://example.com/authorize?state=s2",
        .GetAuthorizationURL "s2" "challenge of verifier",
        .SaveClientInfo sampleClient, .RegisterClient "go-mcp-proxy",
        .startCallbackServer 8080] := by
  decide

/-- C8, amended: when no client id is configured and the store holds a
    registration, `NewProxy` puts the stored id and secret into the OAuth
    configuration; a configured client id is kept as it is.  Whenever the
    client id in that configuration is not the empty string, a flow run with
    it calls neither `RegisterClient` nor `SaveClientInfo`. -/
theorem known_client_id_suppresses_registration (env : Env) (cfg : Config) (fs : FS) (p : Proxy)
    (hnew : NewProxy env cfg fs = .ok p) :
    (cfg.ClientID = "" → ∀ info, p.store.GetClientInfo env.json fs = .ok (some info) →
      p.oauthConfig.ClientID = info.ID ∧ p.oauthConfig.ClientSecret = info.Secret) ∧
    (cfg.ClientID ≠ "" →
      p.oauthConfig.ClientID = cfg.ClientID ∧ p.oauthConfig.ClientSecret = cfg.ClientSecret) ∧
    (p.oauthConfig.ClientID ≠ "" → ∀ err w, w.handler = p.oauthConfig →
      (p.maybeAuthorize env err w).world.registrations = w.registrations ∧
      (p.maybeAuthorize env err w).world.clientInfoSaves = w.clientInfoSaves) := by
  obtain ⟨hid, hsec, _, hcfg, hstored⟩ := NewProxy_oauthConfig env cfg fs p hnew
  refine ⟨fun hempty info hget => ?_, fun hne => ?_, fun hne err w hw => ?_⟩
  · rcases hstored hempty with ⟨hnone, _⟩ | ⟨info', hget', hp⟩
    · rw [hnone] at hget; cases hget
    · rw [hget'] at hget
      cases hget
      rw [hid, hsec, hp]
      exact ⟨rfl, rfl⟩
  · rw [hid, hsec, hcfg hne]
    exact ⟨rfl, rfl⟩
  · obtain ⟨added, ht, _, _, hreg, _⟩ := p.maybeAuthorize_spec env err w
    exact World.registrations_of_trace _ _ added ht (hreg (by rw [hw]; exact hne))

/-- Witness for the amended C8: with the registration `abc`/`xyz` in the
    store and no configured client id, `NewProxy` takes the stored id and
    secret, and a flow run with them makes no registration call. -/
theorem known_client_id_suppresses_registration_witness :
    ((sampleStoredProxy sampleClient).oauthConfig.ClientID = "abc" ∧
      (sampleStoredProxy sampleClient).oauthConfig.ClientSecret = "xyz") ∧
    ((sampleStoredProxy sampleClient).maybeAuthorize
        (sampleEnv .OAuthAuthorizationRequired [("state", "s2"), ("code", "c0de")])
        .OAuthAuthorizationRequired
        { sampleBlankWorld with handler := (sampleStoredProxy sampleClient).oauthConfig }
      ).world.registrations = 0 :=
  have h := known_client_id_suppresses_registration
    (sampleEnv .OAuthAuthorizationRequired [("state", "s2"), ("code", "c0de")]) (sampleConfig "")
    (fsWithFile (sampleRender { ClientInfo := some sampleClient, Token := none }))
    (sampleStoredProxy sampleClient) (by decide)
  ⟨h.1 rfl sampleClient (by decide),
   (h.2.2 (by decide) .OAuthAuthorizationRequired
     { sampleBlankWorld with handler := (sampleStoredProxy sampleClient).oauthConfig } rfl).1⟩

/-! ## Two save operations side by side -/

/-- A goroutine left alone for two steps does what `SaveToken` does. -/
theorem Thread.two_steps_SaveToken (s : Storage) (j : Json) (fs : FS) (t : Option Token) :
    interleave s j [false, false] (.ready (.token t), .returned none, fs) =
      (.returned (s.SaveToken j fs t).1, .returned none, (s.SaveToken j fs t).2) := by
  simp only [interleave, Thread.step, Storage.SaveToken]
  cases s.read j fs with
  | error e => rfl
  | ok data => rfl

/-- A goroutine left alone for two steps does what `SaveClientInfo` does. -/
theorem Thread.two_steps_SaveClientInfo (s : Storage) (j : Json) (fs : FS)
    (c : Option ClientInfo) :
    interleave s j [false, false] (.ready (.clientInfo c), .returned none, fs) =
      (.returned (s.SaveClientInfo j fs c).1, .returned none, (s.SaveClientInfo j fs c).2) := by
  simp only [interleave, Thread.step, Storage.SaveClientInfo]
  cases s.read j fs with
  | error e => rfl
  | ok data => rfl

/-- C10: `SaveToken tok1` and `SaveClientInfo abc/xyz` run side by side on
    an empty store.  Under the schedule read, read, write, write both
    operations return without error, and the persisted record holds the
    registration and no token: the token update is lost.  Run one after the
    other, the same two operations leave both fields in the record. -/
theorem interleaved_saves_lose_update :
    (interleave sampleStorage sampleJson [false, true, false, true]
      (.ready (.token (some sampleToken)), .ready (.clientInfo (some sampleClient)),
        fsRootOnly)).1 = .returned none ∧
    (interleave sampleStorage sampleJson [false, true, false, true]
      (.ready (.token (some sampleToken)), .ready (.clientInfo (some sampleClient)),
        fsRootOnly)).2.1 = .returned none ∧
    sampleStorage.persisted sampleJson
        (interleave sampleStorage sampleJson [false, true, false, true]
          (.ready (.token (some sampleToken)), .ready (.clientInfo (some sampleClient)),
            fsRootOnly)).2.2 =
      .ok { ClientInfo := some sampleClient, Token := none } ∧
    sampleStorage.persisted sampleJson
        (interleave sampleStorage sampleJson [false, false, true, true]
          (.ready (.token (some sampleToken)), .ready (.clientInfo (some sampleClient)),
            fsRootOnly)).2.2 =
      .ok { ClientInfo := some sampleClient, Token := some sampleToken } := by
  decide

end GoMcpProxy
